import Mathlib

/-!
# eWoms: entity dispenser, flash primary variables, PVS boundary rate vector

A shallow embedding of three headers of the eWoms simulator

* `ewoms/parallel/threadedentityiterator.hh`  (`ThreadedEntityIterator`)
* `ewoms/models/flash/flashprimaryvariables.hh` (`FlashPrimaryVariables`)
* `ewoms/models/pvs/pvsboundaryratevector.hh` (`PvsBoundaryRateVector`)

together with theorems about them.

Conventions of the embedding.

* An `EntityIterator` of a grid view is the position it points at in the
  ordered, finite entity range of the view: `begin` is `0`, `end` is the
  number of entities and `++it` is `it + 1`.
* The body of `beginParallel` / `increment` runs between `mutex_.lock()` and
  `mutex_.unlock()`, so a call is one atomic transition of the shared state.
* `Scalar` / `Evaluation` are a template parameter of the C++ code; here
  they are an arbitrary linearly ordered field `α` (the theorems are
  instantiated at `ℚ` when a concrete value is needed).
* A `Dune::FieldVector` with `numEq` entries is a function on `Fin numEq`.
-/

namespace Ewoms

/-! ## ThreadedEntityIterator -/

/-- Iterator over the entities of a grid view: the position it points at. -/
abbrev EntityIterator := Nat

/-- Modelled from the spec: the grid view is an external collaborator, of which
the dispenser uses the ordered, finite, repeatable entity range. -/
structure GridView (Entity : Type) where
  entities : List Entity

/-- The iterator `gridView.begin<codim>()`. -/
def GridView.begin {Entity : Type} (_gridView : GridView Entity) : EntityIterator := 0

/-- The iterator `gridView.end<codim>()` (the end sentinel). -/
def GridView.endIt {Entity : Type} (gridView : GridView Entity) : EntityIterator :=
  gridView.entities.length

/-- Dereferencing an iterator of the grid view (`*it`); the end sentinel
points at no entity. -/
def GridView.deref {Entity : Type} (gridView : GridView Entity) (it : EntityIterator) :
    Option Entity :=
  gridView.entities[it]?

/-- The data members of `ThreadedEntityIterator` (the mutex is represented by
the atomicity of the member functions). -/
structure ThreadedEntityIterator (Entity : Type) where
  gridView_ : GridView Entity
  sequentialIt_ : EntityIterator
  sequentialEnd_ : EntityIterator

namespace ThreadedEntityIterator

variable {Entity : Type}

/-- The constructor `ThreadedEntityIterator(const GridView& gridView)`. -/
def create (gridView : GridView Entity) : ThreadedEntityIterator Entity :=
  ⟨gridView, gridView.begin, gridView.endIt⟩

/-- The member `beginParallel(EntityIterator& threadPrivateIt)`: the argument
is the prior value of the caller's iterator, the result is the successor
state together with the new value of the caller's iterator. -/
def beginParallel (self : ThreadedEntityIterator Entity) (_threadPrivateIt : EntityIterator) :
    ThreadedEntityIterator Entity × EntityIterator :=
  let threadPrivateIt := self.sequentialIt_
  if self.sequentialIt_ ≠ self.sequentialEnd_ then
    (⟨self.gridView_, self.sequentialIt_ + 1, self.sequentialEnd_⟩, threadPrivateIt)
  else
    (self, threadPrivateIt)

/-- The member `isFinished(const EntityIterator& threadPrivateIt)`. -/
def isFinished (self : ThreadedEntityIterator Entity) (threadPrivateIt : EntityIterator) : Bool :=
  threadPrivateIt == self.sequentialEnd_

/-- The member `increment(EntityIterator& threadPrivateIt)`. -/
def increment (self : ThreadedEntityIterator Entity) (_threadPrivateIt : EntityIterator) :
    ThreadedEntityIterator Entity × EntityIterator :=
  let threadPrivateIt := self.sequentialIt_
  if self.sequentialIt_ ≠ self.sequentialEnd_ then
    (⟨self.gridView_, self.sequentialIt_ + 1, self.sequentialEnd_⟩, threadPrivateIt)
  else
    (self, threadPrivateIt)

/-- The cursors a single caller obtains from `n` consecutive calls, the first
of which is `beginParallel` (when `first` is true) and all later ones
`increment`. -/
def callSequence : Nat → Bool → ThreadedEntityIterator Entity → EntityIterator →
    List EntityIterator
  | 0, _, _, _ => []
  | n + 1, first, self, it =>
    let r := if first then self.beginParallel it else self.increment it
    r.2 :: callSequence n false r.1 r.2

/-- The caller's loop `for (; !isFinished(it); increment(it)) visit(it)`: the
cursors visited, when the loop exits within `fuel` evaluations of its
condition, and `none` otherwise. -/
def visitLoop : Nat → ThreadedEntityIterator Entity → EntityIterator →
    Option (List EntityIterator)
  | 0, _, _ => none
  | fuel + 1, self, it =>
    if self.isFinished it then some []
    else (visitLoop fuel (self.increment it).1 (self.increment it).2).map (fun l => it :: l)

/-- The caller's traversal `beginParallel(it); for (; !isFinished(it);
increment(it)) visit(it)`. -/
def traverse (fuel : Nat) (self : ThreadedEntityIterator Entity) (it : EntityIterator) :
    Option (List EntityIterator) :=
  visitLoop fuel (self.beginParallel it).1 (self.beginParallel it).2

/-- One operation of a caller on the dispenser. -/
inductive Call where
  | beginParallel (threadPrivateIt : EntityIterator)
  | increment (threadPrivateIt : EntityIterator)
  deriving DecidableEq, Repr

/-- Performing one call: successor state and the cursor returned. -/
def perform (self : ThreadedEntityIterator Entity) :
    Call → ThreadedEntityIterator Entity × EntityIterator
  | Call.beginParallel it => self.beginParallel it
  | Call.increment it => self.increment it

/-- The state after a sequence of calls. -/
def performAll (self : ThreadedEntityIterator Entity) (calls : List Call) :
    ThreadedEntityIterator Entity :=
  calls.foldl (fun s c => (perform s c).1) self

/-- Several callers sharing one dispenser: the shared state, the private
iterator of every caller (`none` before its `beginParallel`) and the cursors
handed out so far, with the caller that received each, in the order of the
lock acquisitions. -/
structure ParallelRun (Entity : Type) where
  shared : ThreadedEntityIterator Entity
  threadPrivateIt : Nat → Option EntityIterator
  handedOut : List (Nat × EntityIterator)

/-- The parallel region is entered with the freshly constructed dispenser. -/
def ParallelRun.start (gridView : GridView Entity) : ParallelRun Entity :=
  ⟨create gridView, fun _ => none, []⟩

/-- The caller `t` acquires the lock: its first call is `beginParallel`, its
later ones are `increment`. -/
def ParallelRun.step (r : ParallelRun Entity) (t : Nat) : ParallelRun Entity :=
  let res := match r.threadPrivateIt t with
    | none => r.shared.beginParallel 0
    | some it => r.shared.increment it
  ⟨res.1, fun u => if u = t then some res.2 else r.threadPrivateIt u,
    r.handedOut ++ [(t, res.2)]⟩

/-- An interleaving is the list of callers in the order in which they acquire
the lock. -/
def ParallelRun.run (gridView : GridView Entity) (schedule : List Nat) : ParallelRun Entity :=
  schedule.foldl ParallelRun.step (ParallelRun.start gridView)

/-- The non-end cursors handed out in a run, with their callers. -/
def ParallelRun.dispensed (r : ParallelRun Entity) : List (Nat × EntityIterator) :=
  r.handedOut.filter (fun p => !r.shared.isFinished p.2)

end ThreadedEntityIterator

/-! ## Vectors, fluid states and the energy module -/

/-- A `Dune::FieldVector<Scalar, n>`: `n` scalars. -/
abbrev FieldVector (α : Type) (n : Nat) := Fin n → α

namespace FieldVector

variable {α : Type} {n : Nat}

/-- Assignment of a scalar to the whole vector, `(*this) = value`. -/
def assign (n : Nat) (value : α) : FieldVector α n := fun _ => value

/-- Reading the entry `v[i]`; an index outside of the vector reads as `0`. -/
def get [Zero α] (v : FieldVector α n) (i : Nat) : α :=
  if h : i < n then v ⟨i, h⟩ else 0

/-- Writing the entry `v[i] = x`; an index outside of the vector writes nothing. -/
def set (v : FieldVector α n) (i : Nat) (x : α) : FieldVector α n :=
  fun j => if j.val = i then x else v j

/-- Accumulating into an entry, `v[i] += x`. -/
def addTo [Zero α] [Add α] (v : FieldVector α n) (i : Nat) (x : α) : FieldVector α n :=
  v.set i (v.get i + x)

end FieldVector

/-- Modelled from the spec: the `FluidState` interface is external; these are
its accessors, the same for the boundary-specified and for the interior
fluid state. -/
structure FluidState (α : Type) where
  pressure : Nat → α
  saturation : Nat → α
  moleFraction : Nat → Nat → α
  molarity : Nat → Nat → α
  density : Nat → α
  enthalpy : Nat → α
  temperature : α

/-- Modelled from the spec: the `FluidSystem` oracle is external; it gives the
component molar masses, builds a parameter cache from a fluid state
(`paramCache.updateAll(fluidState)`) and evaluates the density and the
enthalpy of a phase from a fluid state and a parameter cache. -/
structure FluidSystem (α : Type) where
  ParameterCache : Type
  updateAll : FluidState α → ParameterCache
  molarMass : Nat → α
  density : FluidState α → ParameterCache → Nat → α
  enthalpy : FluidState α → ParameterCache → Nat → α

/-- Modelled from the spec: the extensive quantities of the PVS model are not
among the sources. The boundary rate vector reads the volumetric flux of
every phase; the energy module computes the heat-conduction rate of the face
from them, which is kept here as one scalar. -/
structure ExtensiveQuantities (α : Type) where
  volumeFlux : Nat → α
  heatConduction : α

/-- Modelled from the spec: the intensive quantities of the PVS model are not
among the sources; the boundary rate vector reads the resolved fluid state
of the interior degree of freedom from them. -/
structure IntensiveQuantities (α : Type) where
  fluidState : FluidState α

namespace EnergyModule

variable {α : Type} {n : Nat}

/-- Modelled from the spec: `EnergyModule::setPriVarTemperatures` of
`ewoms/models/common/energymodule.hh`, which is not among the sources. The
energy collaborator places the temperature degree of freedom of the fluid
state in the primary variables when energy is enabled and is a no-op when
energy is disabled. -/
def setPriVarTemperatures (enableEnergy : Bool) (temperatureIdx : Nat)
    (priVars : FieldVector α n) (fs : FluidState α) : FieldVector α n :=
  if enableEnergy then priVars.set temperatureIdx fs.temperature else priVars

/-- Modelled from the spec: `EnergyModule::addToEnthalpyRate` of
`ewoms/models/common/energymodule.hh`, which is not among the sources. With
energy enabled the rate is accumulated into the slot of the energy equation;
with energy disabled nothing is written. -/
def addToEnthalpyRate [Zero α] [Add α] (enableEnergy : Bool) (contiEnergyEqIdx : Nat)
    (rateVec : FieldVector α n) (rate : α) : FieldVector α n :=
  if enableEnergy then rateVec.addTo contiEnergyEqIdx rate else rateVec

/-- Modelled from the spec: `EnergyModule::heatConductionRate` of
`ewoms/models/common/energymodule.hh`, which is not among the sources. With
energy enabled it is the conductive heat flux of the face, computed from the
extensive quantities; with energy disabled it is zero. -/
def heatConductionRate [Zero α] (enableEnergy : Bool) (extQuants : ExtensiveQuantities α) : α :=
  if enableEnergy then extQuants.heatConduction else 0

end EnergyModule

/-! ## FlashPrimaryVariables -/

/-- Modelled from the spec: the compile-time properties of the flash model
(`flashindices.hh`, `flashproperties.hh` are not among the sources). The
primary variables have `numEq` slots, the slots `cTot0Idx + i` of the
`numComponents` components lie inside the vector and, when energy is enabled,
the temperature has a slot of its own. -/
structure FlashTypeTag where
  numPhases : Nat
  numComponents : Nat
  numEq : Nat
  enableEnergy : Bool
  cTot0Idx : Nat
  temperatureIdx : Nat
  componentSlots : cTot0Idx + numComponents ≤ numEq
  temperatureSlot : enableEnergy = true →
    temperatureIdx < numEq ∧
      (temperatureIdx < cTot0Idx ∨ cTot0Idx + numComponents ≤ temperatureIdx)

/-- Modelled from the spec: the material-law parameters are external and
are not inspected by the primary variables. -/
structure MaterialLawParams where
  id : Nat := 0

namespace FlashPrimaryVariables

variable {α : Type} [LinearOrderedField α]

/-- The member `assignNaive(const FluidState &fluidState)`; `self` is the
content of the vector before the call. -/
def assignNaive (tt : FlashTypeTag) (_self : FieldVector α tt.numEq) (fluidState : FluidState α) :
    FieldVector α tt.numEq :=
  -- reset everything
  let self : FieldVector α tt.numEq := FieldVector.assign tt.numEq 0
  -- assign the phase temperatures
  let self := EnergyModule.setPriVarTemperatures tt.enableEnergy tt.temperatureIdx self fluidState
  (List.range tt.numPhases).foldl
    (fun self phaseIdx =>
      (List.range tt.numComponents).foldl
        (fun self compIdx =>
          self.addTo (tt.cTot0Idx + compIdx)
            (fluidState.molarity phaseIdx compIdx * fluidState.saturation phaseIdx))
        self)
    self

/-- The member `assignMassConservative(fluidState, matParams, isInEquilibrium)`. -/
def assignMassConservative (tt : FlashTypeTag) (self : FieldVector α tt.numEq)
    (fluidState : FluidState α) (_matParams : MaterialLawParams) (_isInEquilibrium : Bool) :
    FieldVector α tt.numEq :=
  assignNaive tt self fluidState

end FlashPrimaryVariables

/-! ## PvsBoundaryRateVector -/

/-- Modelled from the spec: the compile-time properties of the PVS model
(`pvsproperties.hh`, the index classes and the extensive quantities are not
among the sources). The rate vector has `numEq` slots, which hold the
conservation equations: the slots `conti0EqIdx + i` of the `numComponents`
component continuity equations lie inside the vector and, when energy is
enabled, the energy equation has a slot of its own. The context gives the interior intensive
quantities of a boundary face, and `updateBoundary` is the face evaluator of
the extensive quantities. -/
structure PvsTypeTag (α : Type) where
  numPhases : Nat
  numComponents : Nat
  numEq : Nat
  enableEnergy : Bool
  conti0EqIdx : Nat
  contiEnergyEqIdx : Nat
  fluidSystem : FluidSystem α
  Context : Type
  intensiveQuantities : Context → Nat → Nat → IntensiveQuantities α
  updateBoundary : Context → Nat → Nat → FluidState α → fluidSystem.ParameterCache →
    ExtensiveQuantities α
  componentSlots : conti0EqIdx + numComponents ≤ numEq
  energySlot : enableEnergy = true →
    contiEnergyEqIdx < numEq ∧
      (contiEnergyEqIdx < conti0EqIdx ∨ conti0EqIdx + numComponents ≤ contiEnergyEqIdx)

namespace PvsBoundaryRateVector

variable {α : Type} [LinearOrderedField α]

/-- The local `meanMBoundary` of `setFreeFlow` for one phase. -/
def meanMBoundary (tt : PvsTypeTag α) (fluidState : FluidState α) (phaseIdx : Nat) : α :=
  (List.range tt.numComponents).foldl
    (fun meanM compIdx =>
      meanM + fluidState.moleFraction phaseIdx compIdx * tt.fluidSystem.molarMass compIdx)
    0

/-- The local `density` of `setFreeFlow` for one phase. -/
def upwindDensity (tt : PvsTypeTag α) (fluidState : FluidState α)
    (paramCache : tt.fluidSystem.ParameterCache) (insideIntQuants : IntensiveQuantities α)
    (phaseIdx : Nat) : α :=
  if fluidState.pressure phaseIdx > insideIntQuants.fluidState.pressure phaseIdx then
    tt.fluidSystem.density fluidState paramCache phaseIdx
  else
    insideIntQuants.fluidState.density phaseIdx

/-- The local `molarity` of `setFreeFlow` for one phase and one component. -/
def upwindMolarity (tt : PvsTypeTag α) (fluidState : FluidState α)
    (paramCache : tt.fluidSystem.ParameterCache) (insideIntQuants : IntensiveQuantities α)
    (phaseIdx compIdx : Nat) : α :=
  if fluidState.pressure phaseIdx > insideIntQuants.fluidState.pressure phaseIdx then
    fluidState.moleFraction phaseIdx compIdx
        * upwindDensity tt fluidState paramCache insideIntQuants phaseIdx
      / meanMBoundary tt fluidState phaseIdx
  else
    insideIntQuants.fluidState.molarity phaseIdx compIdx

/-- The local `specificEnthalpy` of `setFreeFlow` for one phase. -/
def upwindEnthalpy (tt : PvsTypeTag α) (fluidState : FluidState α)
    (paramCache : tt.fluidSystem.ParameterCache) (insideIntQuants : IntensiveQuantities α)
    (phaseIdx : Nat) : α :=
  if fluidState.pressure phaseIdx > insideIntQuants.fluidState.pressure phaseIdx then
    tt.fluidSystem.enthalpy fluidState paramCache phaseIdx
  else
    insideIntQuants.fluidState.enthalpy phaseIdx

/-- The body of the loop over the phases in `setFreeFlow`. -/
def setFreeFlowPhase (tt : PvsTypeTag α) (fluidState : FluidState α)
    (paramCache : tt.fluidSystem.ParameterCache) (extQuants : ExtensiveQuantities α)
    (insideIntQuants : IntensiveQuantities α) (self : FieldVector α tt.numEq) (phaseIdx : Nat) :
    FieldVector α tt.numEq :=
  let density := upwindDensity tt fluidState paramCache insideIntQuants phaseIdx
  let self := (List.range tt.numComponents).foldl
    (fun self compIdx =>
      let molarity := upwindMolarity tt fluidState paramCache insideIntQuants phaseIdx compIdx
      -- add advective flux of current component in current phase
      self.addTo (tt.conti0EqIdx + compIdx) (extQuants.volumeFlux phaseIdx * molarity))
    self
  if tt.enableEnergy then
    let specificEnthalpy := upwindEnthalpy tt fluidState paramCache insideIntQuants phaseIdx
    let enthalpyRate := density * extQuants.volumeFlux phaseIdx * specificEnthalpy
    EnergyModule.addToEnthalpyRate tt.enableEnergy tt.contiEnergyEqIdx self enthalpyRate
  else
    self

/-- The member `setFreeFlow(context, bfIdx, timeIdx, fluidState)`; `self` is
the content of the rate vector before the call. -/
def setFreeFlow (tt : PvsTypeTag α) (_self : FieldVector α tt.numEq) (context : tt.Context)
    (bfIdx timeIdx : Nat) (fluidState : FluidState α) : FieldVector α tt.numEq :=
  let paramCache := tt.fluidSystem.updateAll fluidState
  let extQuants := tt.updateBoundary context bfIdx timeIdx fluidState paramCache
  let insideIntQuants := tt.intensiveQuantities context bfIdx timeIdx
  -- advective fluxes of all components in all phases
  let self : FieldVector α tt.numEq := FieldVector.assign tt.numEq 0
  let self := (List.range tt.numPhases).foldl
    (setFreeFlowPhase tt fluidState paramCache extQuants insideIntQuants) self
  EnergyModule.addToEnthalpyRate tt.enableEnergy tt.contiEnergyEqIdx self
    (EnergyModule.heatConductionRate tt.enableEnergy extQuants)

/-- The clipping loop of `setInFlow`, `val = Toolbox::min(0.0, val)` for every
equation index. -/
def clipInFlow (tt : PvsTypeTag α) (self : FieldVector α tt.numEq) : FieldVector α tt.numEq :=
  (List.range tt.numEq).foldl (fun self eqIdx => self.set eqIdx (min 0 (self.get eqIdx))) self

/-- The member `setInFlow(context, bfIdx, timeIdx, fluidState)`. -/
def setInFlow (tt : PvsTypeTag α) (self : FieldVector α tt.numEq) (context : tt.Context)
    (bfIdx timeIdx : Nat) (fluidState : FluidState α) : FieldVector α tt.numEq :=
  clipInFlow tt (setFreeFlow tt self context bfIdx timeIdx fluidState)

/-- The clipping loop of `setOutFlow`, `val = Toolbox::max(0.0, val)` for every
equation index. -/
def clipOutFlow (tt : PvsTypeTag α) (self : FieldVector α tt.numEq) : FieldVector α tt.numEq :=
  (List.range tt.numEq).foldl (fun self eqIdx => self.set eqIdx (max 0 (self.get eqIdx))) self

/-- The member `setOutFlow(context, bfIdx, timeIdx, fluidState)`. -/
def setOutFlow (tt : PvsTypeTag α) (self : FieldVector α tt.numEq) (context : tt.Context)
    (bfIdx timeIdx : Nat) (fluidState : FluidState α) : FieldVector α tt.numEq :=
  clipOutFlow tt (setFreeFlow tt self context bfIdx timeIdx fluidState)

/-- The member `setNoFlow()`. -/
def setNoFlow (tt : PvsTypeTag α) (_self : FieldVector α tt.numEq) : FieldVector α tt.numEq :=
  FieldVector.assign tt.numEq 0

/-- The term which the component loop of `setFreeFlow` adds to the slot
`conti0EqIdx + compIdx` in the round of the phase `phaseIdx`: the right-hand
side `extQuants.volumeFlux(phaseIdx)*molarity` of the accumulation. -/
def advectiveFlux (tt : PvsTypeTag α) (fluidState : FluidState α)
    (paramCache : tt.fluidSystem.ParameterCache) (extQuants : ExtensiveQuantities α)
    (insideIntQuants : IntensiveQuantities α) (phaseIdx compIdx : Nat) : α :=
  extQuants.volumeFlux phaseIdx
    * upwindMolarity tt fluidState paramCache insideIntQuants phaseIdx compIdx

/-- The local `molarity` of `setFreeFlow` for one phase and one component,
together with the divisors of the divisions evaluated for it: the boundary
branch divides by `meanMBoundary`, the interior branch does not divide. -/
def upwindMolarityTraced (tt : PvsTypeTag α) (fluidState : FluidState α)
    (paramCache : tt.fluidSystem.ParameterCache) (insideIntQuants : IntensiveQuantities α)
    (phaseIdx compIdx : Nat) : α × List α :=
  if fluidState.pressure phaseIdx > insideIntQuants.fluidState.pressure phaseIdx then
    (fluidState.moleFraction phaseIdx compIdx
        * upwindDensity tt fluidState paramCache insideIntQuants phaseIdx
      / meanMBoundary tt fluidState phaseIdx,
      [meanMBoundary tt fluidState phaseIdx])
  else
    (insideIntQuants.fluidState.molarity phaseIdx compIdx, [])

/-- The body of the loop over the phases in `setFreeFlow`, on the rate vector
paired with the divisors of all divisions evaluated so far. -/
def setFreeFlowPhaseTraced (tt : PvsTypeTag α) (fluidState : FluidState α)
    (paramCache : tt.fluidSystem.ParameterCache) (extQuants : ExtensiveQuantities α)
    (insideIntQuants : IntensiveQuantities α) (self : FieldVector α tt.numEq × List α)
    (phaseIdx : Nat) : FieldVector α tt.numEq × List α :=
  let density := upwindDensity tt fluidState paramCache insideIntQuants phaseIdx
  let self := (List.range tt.numComponents).foldl
    (fun self compIdx =>
      let molarity :=
        upwindMolarityTraced tt fluidState paramCache insideIntQuants phaseIdx compIdx
      (self.1.addTo (tt.conti0EqIdx + compIdx) (extQuants.volumeFlux phaseIdx * molarity.1),
        self.2 ++ molarity.2))
    self
  if tt.enableEnergy then
    let specificEnthalpy := upwindEnthalpy tt fluidState paramCache insideIntQuants phaseIdx
    let enthalpyRate := density * extQuants.volumeFlux phaseIdx * specificEnthalpy
    (EnergyModule.addToEnthalpyRate tt.enableEnergy tt.contiEnergyEqIdx self.1 enthalpyRate,
      self.2)
  else
    self

/-- The member `setFreeFlow`, returning the rate vector together with the
divisors of all divisions which its own arithmetic evaluates, in the order of
evaluation. -/
def setFreeFlowTraced (tt : PvsTypeTag α) (_self : FieldVector α tt.numEq)
    (context : tt.Context) (bfIdx timeIdx : Nat) (fluidState : FluidState α) :
    FieldVector α tt.numEq × List α :=
  let paramCache := tt.fluidSystem.updateAll fluidState
  let extQuants := tt.updateBoundary context bfIdx timeIdx fluidState paramCache
  let insideIntQuants := tt.intensiveQuantities context bfIdx timeIdx
  let self : FieldVector α tt.numEq × List α := (FieldVector.assign tt.numEq 0, [])
  let self := (List.range tt.numPhases).foldl
    (setFreeFlowPhaseTraced tt fluidState paramCache extQuants insideIntQuants) self
  (EnergyModule.addToEnthalpyRate tt.enableEnergy tt.contiEnergyEqIdx self.1
    (EnergyModule.heatConductionRate tt.enableEnergy extQuants), self.2)

end PvsBoundaryRateVector

/-! ## Concrete configurations and fluid states -/

namespace Example

/-- A flash model with two phases, two components and energy enabled: the
component slots are 0 and 1, the temperature slot is 2. -/
def flashTag : FlashTypeTag :=
  ⟨2, 2, 3, true, 0, 2, by decide, by decide⟩

/-- A two-phase fluid state: both phases at saturation 1/2, molarities
4 and 2 in phase 0, 6 and 10 in phase 1, temperature 300. -/
def twoPhase : FluidState ℚ :=
  ⟨fun _ => 100000, fun _ => 1 / 2, fun _ _ => 1 / 2,
    fun p c => if p = 0 then (if c = 0 then 4 else 2) else (if c = 0 then 6 else 10),
    fun _ => 1000, fun _ => 5, 300⟩

/-- A degenerate fluid state: only phase 0 is present (saturation 1, the
other phases at saturation 0), with molarities 5 and 6, temperature 300. -/
def singlePhase : FluidState ℚ :=
  ⟨fun _ => 100000, fun p => if p = 0 then 1 else 0, fun _ _ => 1 / 2,
    fun p c => if p = 0 then (if c = 0 then 5 else 6) else 7,
    fun _ => 1000, fun _ => 5, 300⟩

/-- The fluid state with the same accessors as `fs`, except that every
molarity is multiplied by `k`. -/
def scaleMolarities {α : Type} [Mul α] (k : α) (fs : FluidState α) : FluidState α :=
  ⟨fs.pressure, fs.saturation, fs.moleFraction, fun p c => k * fs.molarity p c,
    fs.density, fs.enthalpy, fs.temperature⟩

/-- The boundary fluid state of the PVS example: pressures 2 and 1, mole
fractions 3/10 and 7/10 in both phases. -/
def boundaryState : FluidState ℚ :=
  ⟨fun p => if p = 0 then 2 else 1, fun _ => 1 / 2,
    fun _ c => if c = 0 then 3 / 10 else 7 / 10, fun _ _ => 40,
    fun _ => 900, fun _ => 5, 300⟩

/-- The interior fluid state of the PVS example: pressures 1 and 2,
molarities 10 and 20 in both phases. -/
def interiorState : FluidState ℚ :=
  ⟨fun p => if p = 0 then 1 else 2, fun _ => 1 / 2,
    fun _ _ => 1 / 2, fun _ c => if c = 0 then 10 else 20,
    fun _ => 800, fun _ => 4, 290⟩

/-- The fluid system of the PVS example: molar masses 1 and 3, density 1000
and specific enthalpy 6 for every phase of every fluid state. -/
def fluidSystem : FluidSystem ℚ :=
  ⟨Unit, fun _ => (), fun c => if c = 0 then 1 else 3, fun _ _ _ => 1000, fun _ _ _ => 6⟩

/-- A PVS model with two phases, two components and energy enabled: the
component equations have the slots 0 and 1, the energy equation the slot 2.
At every face the interior state is `interiorState`, the phases have the
volumetric fluxes 2 and -3, and the conductive heat flux is 7. -/
def pvsTag : PvsTypeTag ℚ :=
  ⟨2, 2, 3, true, 0, 2, fluidSystem, Unit, fun _ _ _ => ⟨interiorState⟩,
    fun _ _ _ _ _ => ⟨fun p => if p = 0 then 2 else -3, 7⟩, by decide, by decide⟩

/-- The PVS example with energy disabled and a rate vector which still has a
third slot, at the index of the energy equation. -/
def isothermalTag : PvsTypeTag ℚ :=
  ⟨2, 2, 3, false, 0, 2, fluidSystem, Unit, fun _ _ _ => ⟨interiorState⟩,
    fun _ _ _ _ _ => ⟨fun p => if p = 0 then 2 else -3, 7⟩, by decide, by decide⟩

/-- A PVS model with a single phase and two components, energy disabled; the
phase has the volumetric flux 2 at every face. -/
def singlePhaseTag : PvsTypeTag ℚ :=
  ⟨1, 2, 2, false, 0, 0, fluidSystem, Unit, fun _ _ _ => ⟨interiorState⟩,
    fun _ _ _ _ _ => ⟨fun _ => 2, 0⟩, by decide, by decide⟩

/-- A PVS model with two phases and a single component, energy disabled; the
phases have the volumetric fluxes 2 and -3 at every face. -/
def singleComponentTag : PvsTypeTag ℚ :=
  ⟨2, 1, 1, false, 0, 0, fluidSystem, Unit, fun _ _ _ => ⟨interiorState⟩,
    fun _ _ _ _ _ => ⟨fun p => if p = 0 then 2 else -3, 0⟩, by decide, by decide⟩

/-- The flash example with a fourth slot, which is neither a component slot
nor the temperature slot. -/
def flashTagSpare : FlashTypeTag :=
  ⟨2, 2, 4, true, 0, 2, by decide, by decide⟩

end Example

/-! ## Theorems: ThreadedEntityIterator -/

namespace ThreadedEntityIterator

variable {Entity : Type}

theorem beginParallel_fst (gv : GridView Entity) (i e it : Nat) :
    (beginParallel (⟨gv, i, e⟩ : ThreadedEntityIterator Entity) it)
      = (if i ≠ e then (⟨gv, i + 1, e⟩ : ThreadedEntityIterator Entity) else ⟨gv, i, e⟩, i) := by
  unfold beginParallel
  by_cases h : i = e <;> simp [h]

theorem increment_fst (gv : GridView Entity) (i e it : Nat) :
    (increment (⟨gv, i, e⟩ : ThreadedEntityIterator Entity) it)
      = (if i ≠ e then (⟨gv, i + 1, e⟩ : ThreadedEntityIterator Entity) else ⟨gv, i, e⟩, i) := by
  unfold increment
  by_cases h : i = e <;> simp [h]

/-- Both calls move a cursor `i ≤ e` to `min (i + 1) e` and return `i`. -/
theorem perform_mk (gv : GridView Entity) (i e : Nat) (h : i ≤ e) (c : Call) :
    perform (⟨gv, i, e⟩ : ThreadedEntityIterator Entity) c = (⟨gv, min (i + 1) e, e⟩, i) := by
  cases c <;> simp only [perform, beginParallel_fst, increment_fst] <;>
    by_cases hi : i = e
  all_goals first
    | (subst hi; simp)
    | (have : i + 1 ≤ e := by omega
       simp [hi, Nat.min_eq_left this])

theorem beginParallel_mk (gv : GridView Entity) (i e : Nat) (h : i ≤ e) (it : Nat) :
    beginParallel (⟨gv, i, e⟩ : ThreadedEntityIterator Entity) it
      = (⟨gv, min (i + 1) e, e⟩, i) :=
  perform_mk gv i e h (Call.beginParallel it)

theorem increment_mk (gv : GridView Entity) (i e : Nat) (h : i ≤ e) (it : Nat) :
    increment (⟨gv, i, e⟩ : ThreadedEntityIterator Entity) it
      = (⟨gv, min (i + 1) e, e⟩, i) :=
  perform_mk gv i e h (Call.increment it)

theorem callSequence_mk (gv : GridView Entity) (e : Nat) :
    ∀ (n i : Nat) (first : Bool) (it : Nat), i ≤ e →
      callSequence n first (⟨gv, i, e⟩ : ThreadedEntityIterator Entity) it
        = (List.range n).map (fun k => min (i + k) e) := by
  intro n
  induction n with
  | zero => intro i first it _; simp [callSequence]
  | succ n ih =>
    intro i first it h
    have hstep : (if first then beginParallel (⟨gv, i, e⟩ : ThreadedEntityIterator Entity) it
        else increment ⟨gv, i, e⟩ it) = (⟨gv, min (i + 1) e, e⟩, i) := by
      cases first <;> simp [beginParallel_mk gv i e h, increment_mk gv i e h]
    simp only [callSequence, hstep]
    rw [ih (min (i + 1) e) false i (Nat.min_le_right _ _), List.range_succ_eq_map]
    simp only [List.map_cons, List.map_map]
    have h0 : min (i + 0) e = i := by simpa using h
    rw [h0]
    congr 1
    apply List.map_congr_left
    intro k _
    simp only [Function.comp]
    omega

theorem visitLoop_mk (gv : GridView Entity) (extra : Nat) :
    ∀ (d i : Nat),
      visitLoop (d + 1 + extra)
          (⟨gv, min (i + 1) (i + d), i + d⟩ : ThreadedEntityIterator Entity) i
        = some (List.range' i d) := by
  intro d
  induction d with
  | zero =>
    intro i
    have hfuel : 0 + 1 + extra = extra + 1 := by omega
    rw [hfuel]
    simp [visitLoop, isFinished]
  | succ d ih =>
    intro i
    have hne : (i == i + (d + 1)) = false := by simp
    have hmin : min (i + 1) (i + (d + 1)) = i + 1 := by omega
    have hfuel : d + 1 + 1 + extra = (d + 1 + extra) + 1 := by omega
    rw [hfuel]
    simp only [visitLoop, isFinished, hne, hmin]
    rw [increment_mk gv (i + 1) (i + (d + 1)) (by omega)]
    have hst : (⟨gv, min (i + 1 + 1) (i + (d + 1)), i + (d + 1)⟩ : ThreadedEntityIterator Entity)
        = ⟨gv, min (i + 1 + 1) (i + 1 + d), i + 1 + d⟩ := by
      have : i + (d + 1) = i + 1 + d := by omega
      rw [this]
    simp only [hst, ih (i + 1)]
    simp [List.range']

theorem map_deref_range (gv : GridView Entity) :
    (List.range gv.entities.length).map gv.deref = gv.entities.map some := by
  apply List.ext_getElem?
  intro k
  by_cases hk : k < gv.entities.length
  · simp [GridView.deref, List.getElem?_range hk, hk, List.getElem?_eq_getElem hk]
  · have hk2 : gv.entities.length ≤ k := by omega
    simp [List.getElem?_eq_none, hk2]

/-- C1. Single-caller determinism of the dispenser: from the freshly
constructed state, the traversal `beginParallel` followed by `increment`
until `isFinished` exits (within `N + 1` evaluations of the loop condition)
and visits exactly the cursors `0, .., N - 1`, which point at the entities
of the range in their order; the first `N + 1` cursors handed out are
`0, .., N`, with `isFinished` false for the first `N` and true for the last. -/
theorem single_caller_determinism (gridView : GridView Entity) (it0 : EntityIterator)
    (extra : Nat) :
    traverse (gridView.entities.length + 1 + extra) (create gridView) it0
        = some (List.range gridView.entities.length)
      ∧ (List.range gridView.entities.length).map gridView.deref = gridView.entities.map some
      ∧ callSequence (gridView.entities.length + 1) true (create gridView) it0
        = List.range (gridView.entities.length + 1)
      ∧ (callSequence (gridView.entities.length + 1) true (create gridView) it0).map
          (create gridView).isFinished
        = List.replicate gridView.entities.length false ++ [true] := by
  have hseq : callSequence (gridView.entities.length + 1) true (create gridView) it0
      = List.range (gridView.entities.length + 1) := by
    unfold create GridView.begin GridView.endIt
    rw [callSequence_mk gridView _ _ 0 true it0 (Nat.zero_le _)]
    conv => rhs; rw [← List.map_id (List.range (gridView.entities.length + 1))]
    apply List.map_congr_left
    intro k hk
    have : k < gridView.entities.length + 1 := List.mem_range.mp hk
    simp only [id]
    omega
  refine ⟨?_, map_deref_range gridView, hseq, ?_⟩
  · unfold traverse create GridView.begin GridView.endIt
    rw [beginParallel_mk gridView 0 _ (Nat.zero_le _)]
    have := visitLoop_mk gridView extra gridView.entities.length 0
    simp only [Nat.zero_add] at this
    simp only [Nat.zero_add, this, List.range_eq_range']
  · rw [hseq, List.range_succ, List.map_append]
    congr 1
    · rw [List.eq_replicate_iff]
      refine ⟨by simp, ?_⟩
      intro b hb
      obtain ⟨k, hk, rfl⟩ := List.mem_map.mp hb
      have hlt : k < gridView.entities.length := List.mem_range.mp hk
      have hne : k ≠ gridView.entities.length := Nat.ne_of_lt hlt
      simp [isFinished, create, GridView.endIt, hne]
    · simp [isFinished, create, GridView.endIt]

theorem ParallelRun.step_mk (r : ParallelRun Entity) (gv : GridView Entity) (i e : Nat)
    (h : i ≤ e) (hs : r.shared = ⟨gv, i, e⟩) (t : Nat) :
    r.step t = ⟨⟨gv, min (i + 1) e, e⟩,
      fun u => if u = t then some i else r.threadPrivateIt u, r.handedOut ++ [(t, i)]⟩ := by
  unfold ParallelRun.step
  cases hp : r.threadPrivateIt t <;>
    simp [hs, beginParallel_mk gv i e h, increment_mk gv i e h]

/-- The state of a run after any interleaving: the shared cursor has advanced
once per call until it reached the end, and the cursors handed out are
`0, 1, ..` in the order of the calls, followed by the end marker. -/
theorem ParallelRun.run_spec (gv : GridView Entity) (schedule : List Nat) :
    (ParallelRun.run gv schedule).shared
        = ⟨gv, min schedule.length gv.entities.length, gv.entities.length⟩
      ∧ (ParallelRun.run gv schedule).handedOut.map Prod.snd
        = List.range (min schedule.length gv.entities.length)
          ++ List.replicate (schedule.length - gv.entities.length) gv.entities.length
      ∧ (ParallelRun.run gv schedule).handedOut.map Prod.fst = schedule
      ∧ ∀ t c, (ParallelRun.run gv schedule).threadPrivateIt t = some c →
          (t, c) ∈ (ParallelRun.run gv schedule).handedOut := by
  induction schedule using List.reverseRecOn with
  | nil =>
    simp [ParallelRun.run, ParallelRun.start, create, GridView.begin, GridView.endIt]
  | append_singleton l t ih =>
    obtain ⟨h1, h2, h3, h4⟩ := ih
    have hrun : ParallelRun.run gv (l ++ [t]) = (ParallelRun.run gv l).step t := by
      simp [ParallelRun.run, List.foldl_append]
    rw [hrun, ParallelRun.step_mk _ gv _ _ (Nat.min_le_right _ _) h1 t]
    refine ⟨?_, ?_, ?_, ?_⟩
    · have : min (min l.length gv.entities.length + 1) gv.entities.length
          = min (l ++ [t]).length gv.entities.length := by
        simp only [List.length_append, List.length_singleton]; omega
      simp only [this]
    · simp only [List.map_append, List.map_cons, List.map_nil, h2, List.length_append,
        List.length_singleton]
      by_cases hlt : l.length < gv.entities.length
      · have e1 : min l.length gv.entities.length = l.length := by omega
        have e2 : min (l.length + 1) gv.entities.length = l.length + 1 := by omega
        have e3 : l.length - gv.entities.length = 0 := by omega
        have e4 : l.length + 1 - gv.entities.length = 0 := by omega
        simp [e1, e2, e3, e4, List.range_succ]
      · have e1 : min l.length gv.entities.length = gv.entities.length := by omega
        have e2 : min (l.length + 1) gv.entities.length = gv.entities.length := by omega
        have e4 : l.length + 1 - gv.entities.length
            = (l.length - gv.entities.length) + 1 := by omega
        simp only [e1, e2, e4, List.replicate_succ', List.append_assoc]
    · simp [h3]
    · intro u c hu
      simp only at hu
      by_cases hut : u = t
      · subst hut
        simp only [if_true, Option.some.injEq] at hu
        subst hu
        simp
      · simp only [hut, if_false] at hu
        simp [h4 u c hu]

/-- C2. Exhaustiveness and uniqueness of the dispenser under concurrency, each
locked call being one atomic step: for every entity range, every number
`T ≥ 1` of callers and every interleaving of their calls in which every
caller runs until it has received the end marker, the non-end cursors handed
out are, in the order of the lock acquisitions, exactly `0, .., N - 1`, they
point at the entities of the range in the original order, every entity is
handed out by exactly one call, and that call is made by one of the callers. -/
theorem concurrent_exhaustive_unique (gridView : GridView Entity) (T : Nat)
    (schedule : List Nat) (hT : 1 ≤ T) (hcallers : ∀ t, t ∈ schedule → t < T)
    (hcomplete : ∀ t, t < T → ∃ c,
      (ParallelRun.run gridView schedule).threadPrivateIt t = some c
        ∧ (ParallelRun.run gridView schedule).shared.isFinished c = true) :
    (ParallelRun.run gridView schedule).dispensed.map Prod.snd
        = List.range gridView.entities.length
      ∧ (ParallelRun.run gridView schedule).dispensed.map (fun p => gridView.deref p.2)
        = gridView.entities.map some
      ∧ ∀ i, i < gridView.entities.length → ∃ t, t < T ∧
          (ParallelRun.run gridView schedule).handedOut.filter (fun p => p.2 == i)
            = [(t, i)] := by
  obtain ⟨h1, h2, h3, h4⟩ := ParallelRun.run_spec gridView schedule
  -- the run is long enough for the end marker to have been handed out
  have hlen : gridView.entities.length < schedule.length := by
    obtain ⟨c, hc, hfin⟩ := hcomplete 0 (by omega)
    have hmem := h4 0 c hc
    have hcN : c = gridView.entities.length := by
      simpa [h1, isFinished] using hfin
    have hsnd : c ∈ (ParallelRun.run gridView schedule).handedOut.map Prod.snd :=
      List.mem_map.mpr ⟨(0, c), hmem, rfl⟩
    rw [h2, hcN, List.mem_append] at hsnd
    rcases hsnd with hr | hr
    · have := List.mem_range.mp hr
      omega
    · by_contra hcon
      have e : schedule.length - gridView.entities.length = 0 := by omega
      rw [e] at hr
      simp at hr
  have hmin : min schedule.length gridView.entities.length = gridView.entities.length := by
    omega
  rw [hmin] at h2
  have hdisp : (ParallelRun.run gridView schedule).dispensed.map Prod.snd
      = List.range gridView.entities.length := by
    have hf : (fun p : Nat × EntityIterator =>
          !(ParallelRun.run gridView schedule).shared.isFinished p.2)
        = (fun c : Nat => !(c == gridView.entities.length)) ∘ Prod.snd := by
      funext p
      simp [h1, isFinished]
    unfold ParallelRun.dispensed
    rw [hf, ← List.filter_map, h2, List.filter_append]
    have ha : List.filter (fun c : Nat => !(c == gridView.entities.length))
        (List.range gridView.entities.length) = List.range gridView.entities.length := by
      rw [List.filter_eq_self]
      intro a ha
      have hlt : a < gridView.entities.length := List.mem_range.mp ha
      have hne : a ≠ gridView.entities.length := Nat.ne_of_lt hlt
      simp [hne]
    have hb : List.filter (fun c : Nat => !(c == gridView.entities.length))
        (List.replicate (schedule.length - gridView.entities.length)
          gridView.entities.length) = [] := by
      rw [List.filter_eq_nil_iff]
      intro a ha
      have := List.eq_of_mem_replicate ha
      simp [this]
    rw [ha, hb, List.append_nil]
  refine ⟨hdisp, ?_, ?_⟩
  · have : (ParallelRun.run gridView schedule).dispensed.map (fun p => gridView.deref p.2)
        = ((ParallelRun.run gridView schedule).dispensed.map Prod.snd).map gridView.deref := by
      rw [List.map_map]; rfl
    rw [this, hdisp, map_deref_range]
  · intro i hi
    have hcount : ((ParallelRun.run gridView schedule).handedOut.filter
        (fun p => p.2 == i)).length = 1 := by
      have hf : (fun p : Nat × EntityIterator => p.2 == i)
          = (fun c : Nat => c == i) ∘ Prod.snd := rfl
      rw [← List.countP_eq_length_filter, hf, ← List.countP_map, h2, List.countP_append]
      have hc1 : List.countP (fun c : Nat => c == i) (List.range gridView.entities.length)
          = 1 :=
        List.count_eq_one_of_mem (List.nodup_range _) (List.mem_range.mpr hi)
      have hc2 : List.countP (fun c : Nat => c == i)
          (List.replicate (schedule.length - gridView.entities.length)
            gridView.entities.length) = 0 := by
        rw [List.countP_eq_zero]
        intro a ha
        have := List.eq_of_mem_replicate ha
        have hne : gridView.entities.length ≠ i := by omega
        simp [this, hne]
      rw [hc1, hc2]
    obtain ⟨a, ha⟩ := List.length_eq_one.mp hcount
    have hmem : a ∈ (ParallelRun.run gridView schedule).handedOut.filter
        (fun p => p.2 == i) := by rw [ha]; simp
    obtain ⟨hin, hsnd⟩ := List.mem_filter.mp hmem
    have hsnd2 : a.2 = i := by simpa using hsnd
    have hfst : a.1 ∈ schedule := by
      rw [← h3]
      exact List.mem_map.mpr ⟨a, hin, rfl⟩
    refine ⟨a.1, hcallers _ hfst, ?_⟩
    rw [ha, ← hsnd2]

/-- An instance of C2: three entities, two callers, lock acquisitions in
the order 0, 1, 0, 1, 0. -/
theorem concurrent_exhaustive_unique_witness :
    (ParallelRun.run (⟨[10, 20, 30]⟩ : GridView Nat) [0, 1, 0, 1, 0]).dispensed.map Prod.snd
        = [0, 1, 2]
      ∧ (ParallelRun.run (⟨[10, 20, 30]⟩ : GridView Nat) [0, 1, 0, 1, 0]).dispensed.map
          (fun p => (⟨[10, 20, 30]⟩ : GridView Nat).deref p.2)
        = [some 10, some 20, some 30]
      ∧ ∃ t, t < 2 ∧
          (ParallelRun.run (⟨[10, 20, 30]⟩ : GridView Nat) [0, 1, 0, 1, 0]).handedOut.filter
            (fun p => p.2 == 1) = [(t, 1)] :=
  have w := concurrent_exhaustive_unique (⟨[10, 20, 30]⟩ : GridView Nat) 2 [0, 1, 0, 1, 0]
    (by decide) (by decide)
    (by
      intro t ht
      have h01 : t = 0 ∨ t = 1 := by omega
      rcases h01 with rfl | rfl
      · exact ⟨3, rfl, rfl⟩
      · exact ⟨3, rfl, rfl⟩)
  ⟨w.1, w.2.1, w.2.2 1 (by decide)⟩

theorem performAll_spec (gv : GridView Entity) (calls : List Call) :
    performAll (create gv) calls
      = ⟨gv, min calls.length gv.entities.length, gv.entities.length⟩ := by
  induction calls using List.reverseRecOn with
  | nil => simp [performAll, create, GridView.begin, GridView.endIt]
  | append_singleton l c ih =>
    have hrun : performAll (create gv) (l ++ [c])
        = (perform (performAll (create gv) l) c).1 := by
      simp [performAll, List.foldl_append]
    rw [hrun, ih, perform_mk gv _ _ (Nat.min_le_right _ _)]
    have : min (min l.length gv.entities.length + 1) gv.entities.length
        = min (l ++ [c]).length gv.entities.length := by
      simp only [List.length_append, List.length_singleton]; omega
    simp only [this]

theorem performAll_exhausted (gv : GridView Entity) (e : Nat) (more : List Call) :
    performAll (⟨gv, e, e⟩ : ThreadedEntityIterator Entity) more = ⟨gv, e, e⟩ := by
  induction more with
  | nil => rfl
  | cons c cs ih =>
    have : performAll (⟨gv, e, e⟩ : ThreadedEntityIterator Entity) (c :: cs)
        = performAll (perform (⟨gv, e, e⟩ : ThreadedEntityIterator Entity) c).1 cs := rfl
    rw [this, perform_mk gv e e (Nat.le_refl _)]
    simpa using ih

/-- C3. Post-exhaustion behaviour of the dispenser: in every state reached from
construction by any sequence of calls the shared cursor lies between begin
and the end sentinel, which never changes; and once the shared cursor equals
the end sentinel, any further calls leave the state unchanged and every one
of them returns the end marker, for which `isFinished` is true. Every call
returns a state and a cursor (there is no failing result). -/
theorem post_exhaustion (gridView : GridView Entity) (calls : List Call) :
    gridView.begin ≤ (performAll (create gridView) calls).sequentialIt_
      ∧ (performAll (create gridView) calls).sequentialIt_ ≤ gridView.endIt
      ∧ (performAll (create gridView) calls).sequentialEnd_ = gridView.endIt
      ∧ ((performAll (create gridView) calls).sequentialIt_ = gridView.endIt →
          ∀ (more : List Call) (c : Call),
            performAll (performAll (create gridView) calls) more
                = performAll (create gridView) calls
              ∧ perform (performAll (performAll (create gridView) calls) more) c
                = (performAll (create gridView) calls, gridView.endIt)
              ∧ (performAll (create gridView) calls).isFinished
                  (perform (performAll (performAll (create gridView) calls) more) c).2
                = true) := by
  rw [performAll_spec gridView calls]
  refine ⟨Nat.zero_le _, Nat.min_le_right _ _, rfl, ?_⟩
  intro hend more c
  simp only [GridView.endIt] at hend ⊢
  rw [hend, performAll_exhausted gridView _ more, perform_mk gridView _ _ (Nat.le_refl _)]
  simp [isFinished]

/-- An instance of C3: two entities, drained by three calls, then two more
calls. -/
theorem post_exhaustion_witness :
    performAll (performAll (create (⟨[10, 20]⟩ : GridView Nat))
          [Call.beginParallel 7, Call.increment 0, Call.increment 1]) [Call.increment 2]
        = performAll (create (⟨[10, 20]⟩ : GridView Nat))
          [Call.beginParallel 7, Call.increment 0, Call.increment 1]
      ∧ perform (performAll (performAll (create (⟨[10, 20]⟩ : GridView Nat))
          [Call.beginParallel 7, Call.increment 0, Call.increment 1]) [Call.increment 2])
          (Call.beginParallel 5)
        = (performAll (create (⟨[10, 20]⟩ : GridView Nat))
          [Call.beginParallel 7, Call.increment 0, Call.increment 1], 2)
      ∧ (performAll (create (⟨[10, 20]⟩ : GridView Nat))
          [Call.beginParallel 7, Call.increment 0, Call.increment 1]).isFinished
          (perform (performAll (performAll (create (⟨[10, 20]⟩ : GridView Nat))
            [Call.beginParallel 7, Call.increment 0, Call.increment 1]) [Call.increment 2])
            (Call.beginParallel 5)).2 = true :=
  (post_exhaustion (⟨[10, 20]⟩ : GridView Nat)
    [Call.beginParallel 7, Call.increment 0, Call.increment 1]).2.2.2 (by decide)
    [Call.increment 2] (Call.beginParallel 5)

/-- C20. `beginParallel` and `increment` are the same operation: for every
state of the dispenser and all prior values of the caller's cursor both
return the same cursor and the same successor state. `beginParallel` never
moves the shared cursor backwards, and once the range has been drained (the
shared cursor is at the end sentinel) a further `beginParallel` returns the
end marker and leaves the state as it is. -/
theorem beginParallel_eq_increment (self : ThreadedEntityIterator Entity)
    (it1 it2 : EntityIterator) (gridView : GridView Entity) (calls : List Call) :
    self.beginParallel it1 = self.increment it2
      ∧ self.sequentialIt_ ≤ (self.beginParallel it1).1.sequentialIt_
      ∧ ((performAll (create gridView) calls).sequentialIt_ = gridView.endIt →
          (performAll (create gridView) calls).beginParallel it1
              = (performAll (create gridView) calls, gridView.endIt)
            ∧ (performAll (create gridView) calls).isFinished
                ((performAll (create gridView) calls).beginParallel it1).2 = true) := by
  refine ⟨rfl, ?_, ?_⟩
  · unfold beginParallel
    by_cases h : self.sequentialIt_ = self.sequentialEnd_
    · simp [h]
    · simp [h]
  · rw [performAll_spec gridView calls]
    intro hend
    simp only [GridView.endIt] at hend ⊢
    rw [hend, beginParallel_mk gridView _ _ (Nat.le_refl _)]
    simp [isFinished]

/-- An instance of C20: two entities drained by three calls; a further
`beginParallel` returns the end marker 2 and not the beginning 0. -/
theorem beginParallel_eq_increment_witness :
    (performAll (create (⟨[10, 20]⟩ : GridView Nat))
          [Call.beginParallel 7, Call.increment 0, Call.increment 1]).beginParallel 5
        = (performAll (create (⟨[10, 20]⟩ : GridView Nat))
            [Call.beginParallel 7, Call.increment 0, Call.increment 1], 2)
      ∧ (performAll (create (⟨[10, 20]⟩ : GridView Nat))
          [Call.beginParallel 7, Call.increment 0, Call.increment 1]).isFinished
          ((performAll (create (⟨[10, 20]⟩ : GridView Nat))
            [Call.beginParallel 7, Call.increment 0, Call.increment 1]).beginParallel 5).2
        = true :=
  (beginParallel_eq_increment
    (create (⟨[10, 20]⟩ : GridView Nat)) 5 0 (⟨[10, 20]⟩ : GridView Nat)
    [Call.beginParallel 7, Call.increment 0, Call.increment 1]).2.2 (by decide)

end ThreadedEntityIterator

/-! ## Theorems: vectors and loops -/

namespace FieldVector

variable {α : Type} {n : Nat}

theorem get_val [Zero α] (v : FieldVector α n) (j : Fin n) : v.get j.val = v j := by
  simp [get, j.isLt]

theorem get_of_lt [Zero α] (v : FieldVector α n) (i : Nat) (h : i < n) : v.get i = v ⟨i, h⟩ := by
  simp [get, h]

theorem set_apply (v : FieldVector α n) (i : Nat) (x : α) (j : Fin n) :
    v.set i x j = if j.val = i then x else v j := rfl

theorem addTo_apply [AddCommMonoid α] (v : FieldVector α n) (i : Nat) (x : α) (j : Fin n) :
    v.addTo i x j = v j + (if j.val = i then x else 0) := by
  unfold addTo
  rw [set_apply]
  by_cases h : j.val = i
  · subst h; simp [get_val]
  · simp [h]

/-- A loop whose body adds `c k j` to every slot `j` in round `k` adds up the
sum of the contributions. -/
theorem foldl_range_add [AddCommMonoid α] (step : FieldVector α n → Nat → FieldVector α n)
    (c : Nat → Fin n → α) (hstep : ∀ v k j, step v k j = v j + c k j) (m : Nat)
    (v : FieldVector α n) (j : Fin n) :
    (List.range m).foldl step v j = v j + Finset.sum (Finset.range m) (fun k => c k j) := by
  induction m with
  | zero => simp
  | succ m ih =>
    rw [List.range_succ, List.foldl_append, List.foldl_cons, List.foldl_nil, hstep, ih,
      Finset.sum_range_succ, add_assoc]

/-- A loop which replaces slot `k` by `g` of its value in round `k`. -/
theorem foldl_range_map [Zero α] (g : α → α) (m : Nat) (v : FieldVector α n) (j : Fin n) :
    (List.range m).foldl (fun self k => self.set k (g (self.get k))) v j
      = if j.val < m then g (v j) else v j := by
  induction m with
  | zero => simp
  | succ m ih =>
    rw [List.range_succ, List.foldl_append, List.foldl_cons, List.foldl_nil, set_apply]
    by_cases h : j.val = m
    · have hget : ((List.range m).foldl (fun self k => self.set k (g (self.get k))) v).get m
          = (List.range m).foldl (fun self k => self.set k (g (self.get k))) v j := by
        rw [← h, get_val]
      rw [if_pos h, hget, ih]
      simp [h]
    · rw [if_neg h, ih]
      by_cases h2 : j.val < m
      · have : j.val < m + 1 := by omega
        simp [h2, this]
      · have : ¬ j.val < m + 1 := by omega
        simp [h2, this]

/-- The contributions `f k` added to the slots `c0 + k`, read at slot `c0 + i`. -/
theorem sum_slot [AddCommMonoid α] (c0 m i : Nat) (hi : i < m) (f : Nat → α) :
    Finset.sum (Finset.range m) (fun k => if c0 + i = c0 + k then f k else 0) = f i := by
  have : ∀ k, (if c0 + i = c0 + k then f k else 0) = (if i = k then f k else 0) := by
    intro k
    by_cases h : i = k
    · simp [h]
    · have : ¬ c0 + i = c0 + k := by omega
      simp [h, this]
  simp only [this]
  rw [Finset.sum_ite_eq]
  simp [hi]

end FieldVector

/-! ## Theorems: FlashPrimaryVariables -/

namespace FlashPrimaryVariables

variable {α : Type} [LinearOrderedField α]

/-- The value of every slot after `assignNaive`: the temperature placed by the
energy module plus everything the double loop accumulates into the slot. -/
theorem assignNaive_apply (tt : FlashTypeTag) (self : FieldVector α tt.numEq)
    (fluidState : FluidState α) (j : Fin tt.numEq) :
    assignNaive tt self fluidState j
      = (if tt.enableEnergy = true ∧ j.val = tt.temperatureIdx then fluidState.temperature
          else 0)
        + Finset.sum (Finset.range tt.numPhases) (fun p =>
            Finset.sum (Finset.range tt.numComponents) (fun c =>
              if j.val = tt.cTot0Idx + c
              then fluidState.molarity p c * fluidState.saturation p else 0)) := by
  simp only [assignNaive]
  rw [FieldVector.foldl_range_add _
    (fun p j => Finset.sum (Finset.range tt.numComponents) (fun c =>
      if j.val = tt.cTot0Idx + c
      then fluidState.molarity p c * fluidState.saturation p else 0))]
  · congr 1
    unfold EnergyModule.setPriVarTemperatures FieldVector.assign
    by_cases hE : tt.enableEnergy = true
    · by_cases hj : j.val = tt.temperatureIdx
      · simp [hE, hj, FieldVector.set_apply]
      · simp [hE, hj, FieldVector.set_apply]
    · simp [hE]
  · intro v p j
    rw [FieldVector.foldl_range_add _
      (fun c j => if j.val = tt.cTot0Idx + c
        then fluidState.molarity p c * fluidState.saturation p else 0)]
    intro v c j
    rw [FieldVector.addTo_apply]

/-- C4. Encoder formula: after `assignNaive` the slot `cTot0Idx + i` of every
component `i` holds the sum over all phases of
`molarity(phase, i) * saturation(phase)`, for every fluid state and every
prior content of the vector. The temperature placed by the energy module does
not touch the component slots, because it has a slot of its own. -/
theorem encoder_formula (tt : FlashTypeTag) (self : FieldVector α tt.numEq)
    (fluidState : FluidState α) (i : Nat) (hi : i < tt.numComponents) :
    (assignNaive tt self fluidState).get (tt.cTot0Idx + i)
      = Finset.sum (Finset.range tt.numPhases)
          (fun p => fluidState.molarity p i * fluidState.saturation p) := by
  have hlt : tt.cTot0Idx + i < tt.numEq := by
    have := tt.componentSlots
    omega
  rw [FieldVector.get_of_lt _ _ hlt, assignNaive_apply]
  have hT : ¬ (tt.enableEnergy = true ∧ tt.cTot0Idx + i = tt.temperatureIdx) := by
    rintro ⟨hE, hj⟩
    have := (tt.temperatureSlot hE).2
    omega
  simp only [hT, if_false, zero_add]
  apply Finset.sum_congr rfl
  intro p _
  exact FieldVector.sum_slot tt.cTot0Idx tt.numComponents i hi
    (fun c => fluidState.molarity p c * fluidState.saturation p)

/-- C5. `assignMassConservative` is behaviourally identical to `assignNaive`: for
every fluid state, every material-law parameter, both values of
`isInEquilibrium` and all prior contents of the two vectors the results are
the same vector. -/
theorem assignMassConservative_eq_assignNaive (tt : FlashTypeTag)
    (self self0 : FieldVector α tt.numEq) (fluidState : FluidState α)
    (matParams : MaterialLawParams) (isInEquilibrium : Bool) :
    assignMassConservative tt self fluidState matParams isInEquilibrium
      = assignNaive tt self0 fluidState := by
  unfold assignMassConservative assignNaive
  rfl

/-- C6. Encoder phase-invariance: two fluid states with the same temperature
whose sums over the phases of `molarity(phase, comp) * saturation(phase)`
agree for every component are encoded to identical vectors, whichever phases
are present in either of them (in particular a two-phase state and a state
with a single phase present and the others at zero saturation). -/
theorem encoder_phase_invariance (tt : FlashTypeTag) (self1 self2 : FieldVector α tt.numEq)
    (fs1 fs2 : FluidState α) (htemp : fs1.temperature = fs2.temperature)
    (hsum : ∀ comp, comp < tt.numComponents →
      Finset.sum (Finset.range tt.numPhases) (fun p => fs1.molarity p comp * fs1.saturation p)
        = Finset.sum (Finset.range tt.numPhases)
            (fun p => fs2.molarity p comp * fs2.saturation p)) :
    assignNaive tt self1 fs1 = assignNaive tt self2 fs2 := by
  funext j
  rw [assignNaive_apply, assignNaive_apply, htemp]
  congr 1
  conv_lhs => rw [Finset.sum_comm]
  conv_rhs => rw [Finset.sum_comm]
  apply Finset.sum_congr rfl
  intro c hc
  have hc2 : c < tt.numComponents := Finset.mem_range.mp hc
  by_cases hj : j.val = tt.cTot0Idx + c
  · simp only [hj, if_true]
    exact hsum c hc2
  · simp only [hj, if_false]

/-- An instance of C4: the slot of component 1 of the two-phase example
holds `2 * 1/2 + 10 * 1/2 = 6`. -/
theorem encoder_formula_witness :
    (assignNaive Example.flashTag (fun _ => 99) Example.twoPhase).get (0 + 1) = 6 :=
  (encoder_formula Example.flashTag (fun _ => 99) Example.twoPhase 1 (by decide)).trans
    (by norm_num [Finset.sum_range_succ, Example.flashTag, Example.twoPhase])

/-- An instance of C6: the two-phase example and the single-phase example
have the sums 5 and 6 for the two components and are encoded identically. -/
theorem encoder_phase_invariance_witness :
    assignNaive Example.flashTag (fun _ => 99) Example.twoPhase
      = assignNaive Example.flashTag (fun _ => 0) Example.singlePhase :=
  encoder_phase_invariance Example.flashTag (fun _ => 99) (fun _ => 0)
    Example.twoPhase Example.singlePhase rfl
    (by
      intro comp hcomp
      have h2 : comp < 2 := hcomp
      have h01 : comp = 0 ∨ comp = 1 := by omega
      rcases h01 with rfl | rfl <;>
        norm_num [Finset.sum_range_succ, Example.flashTag, Example.twoPhase,
          Example.singlePhase])

/-- C7, as stated, fails with energy enabled: doubling the molarities of the
two-phase example leaves the temperature slot at 300, while twice the vector
encoded from the original state has 600 in that slot. -/
theorem encoder_linearity_counterexample :
    (Example.scaleMolarities 2 Example.twoPhase).saturation = Example.twoPhase.saturation
      ∧ (Example.scaleMolarities 2 Example.twoPhase).molarity
        = (fun p c => 2 * Example.twoPhase.molarity p c)
      ∧ (assignNaive Example.flashTag (fun _ => 0)
        (Example.scaleMolarities 2 Example.twoPhase)).get 2 = 300
      ∧ 2 * (assignNaive Example.flashTag (fun _ => 0) Example.twoPhase).get 2 = 600
      ∧ assignNaive Example.flashTag (fun _ => 0) (Example.scaleMolarities 2 Example.twoPhase)
        ≠ fun j => 2 * assignNaive Example.flashTag (fun _ => 0) Example.twoPhase j := by
  have h2 : (2 : Nat) < Example.flashTag.numEq := by decide
  have ha : (assignNaive Example.flashTag (fun _ => 0)
      (Example.scaleMolarities 2 Example.twoPhase)).get 2 = 300 := by
    rw [FieldVector.get_of_lt _ _ h2, assignNaive_apply]
    norm_num [Finset.sum_range_succ, Example.flashTag, Example.twoPhase,
      Example.scaleMolarities]
  have hb : (assignNaive Example.flashTag (fun _ => 0) Example.twoPhase).get 2 = 300 := by
    rw [FieldVector.get_of_lt _ _ h2, assignNaive_apply]
    norm_num [Finset.sum_range_succ, Example.flashTag, Example.twoPhase]
  refine ⟨rfl, rfl, ha, by rw [hb]; norm_num, ?_⟩
  intro hcon
  have h := congrFun hcon ⟨2, h2⟩
  rw [FieldVector.get_of_lt _ _ h2] at ha hb
  rw [ha, hb] at h
  norm_num at h

/-- C7, amended. Encoder linearity on the component slots: if a second fluid
state has the same saturations and every molarity multiplied by `k`, then
every slot of the vector encoded from it, other than the temperature slot
when energy is enabled, is `k` times the slot of the vector encoded from the
first state (so the whole vector is, when energy is disabled); the
temperature slot holds the temperature of the encoded state, not scaled. -/
theorem encoder_linearity (tt : FlashTypeTag) (self1 self2 : FieldVector α tt.numEq)
    (fs1 fs2 : FluidState α) (k : α)
    (hsat : ∀ p, fs2.saturation p = fs1.saturation p)
    (hmol : ∀ p c, fs2.molarity p c = k * fs1.molarity p c) (j : Fin tt.numEq) :
    ((tt.enableEnergy = true → j.val ≠ tt.temperatureIdx) →
        assignNaive tt self2 fs2 j = k * assignNaive tt self1 fs1 j)
      ∧ (tt.enableEnergy = true → j.val = tt.temperatureIdx →
        assignNaive tt self2 fs2 j = fs2.temperature) := by
  constructor
  · intro hj
    rw [assignNaive_apply, assignNaive_apply]
    have hT : ¬ (tt.enableEnergy = true ∧ j.val = tt.temperatureIdx) := by
      rintro ⟨hE, hjt⟩
      exact hj hE hjt
    simp only [hT, if_false, zero_add, Finset.mul_sum]
    apply Finset.sum_congr rfl
    intro p _
    apply Finset.sum_congr rfl
    intro c _
    by_cases hc : j.val = tt.cTot0Idx + c
    · simp only [hc, if_true, hsat, hmol, mul_assoc]
    · simp only [hc, if_false, mul_zero]
  · intro hE hj
    rw [assignNaive_apply]
    have hsum : Finset.sum (Finset.range tt.numPhases) (fun p =>
        Finset.sum (Finset.range tt.numComponents) (fun c =>
          if j.val = tt.cTot0Idx + c
          then fs2.molarity p c * fs2.saturation p else 0)) = 0 := by
      apply Finset.sum_eq_zero
      intro p _
      apply Finset.sum_eq_zero
      intro c hc
      have hc2 : c < tt.numComponents := Finset.mem_range.mp hc
      have hne : ¬ j.val = tt.cTot0Idx + c := by
        have := (tt.temperatureSlot hE).2
        omega
      simp only [hne, if_false]
    rw [hsum]
    simp [hE, hj]

/-- An instance of C7, amended: doubling the molarities of the two-phase
example doubles the slot of component 0 and leaves the temperature slot at
the temperature 300. -/
theorem encoder_linearity_witness :
    assignNaive Example.flashTag (fun _ => 0) (Example.scaleMolarities 2 Example.twoPhase)
          ⟨0, by decide⟩
        = 2 * assignNaive Example.flashTag (fun _ => 0) Example.twoPhase ⟨0, by decide⟩
      ∧ assignNaive Example.flashTag (fun _ => 0) (Example.scaleMolarities 2 Example.twoPhase)
          ⟨2, by decide⟩
        = 300 :=
  ⟨(encoder_linearity Example.flashTag (fun _ => 0) (fun _ => 0) Example.twoPhase
      (Example.scaleMolarities 2 Example.twoPhase) 2 (fun _ => rfl) (fun _ _ => rfl)
      ⟨0, by decide⟩).1 (by decide),
    (encoder_linearity Example.flashTag (fun _ => 0) (fun _ => 0) Example.twoPhase
      (Example.scaleMolarities 2 Example.twoPhase) 2 (fun _ => rfl) (fun _ _ => rfl)
      ⟨2, by decide⟩).2 rfl rfl⟩

/-- C17. The encoded vector is fully overwritten and the encoder is otherwise
stateless: for every fluid state, `assignNaive` yields the same vector from
every two prior contents, every slot which is neither a component slot nor
the temperature slot placed by the energy module (with energy enabled) is 0,
and calling `assignNaive` a second time with the same fluid state gives the
same vector as calling it once. -/
theorem encoder_overwrite (tt : FlashTypeTag) (self1 self2 : FieldVector α tt.numEq)
    (fluidState : FluidState α) (j : Fin tt.numEq) :
    assignNaive tt self1 fluidState = assignNaive tt self2 fluidState
      ∧ ((∀ c, c < tt.numComponents → j.val ≠ tt.cTot0Idx + c) →
          (tt.enableEnergy = true → j.val ≠ tt.temperatureIdx) →
          assignNaive tt self1 fluidState j = 0)
      ∧ assignNaive tt (assignNaive tt self1 fluidState) fluidState
        = assignNaive tt self1 fluidState := by
  refine ⟨rfl, ?_, rfl⟩
  intro hcomp htemp
  rw [assignNaive_apply]
  have hT : ¬ (tt.enableEnergy = true ∧ j.val = tt.temperatureIdx) := by
    rintro ⟨hE, hj⟩
    exact htemp hE hj
  simp only [hT, if_false, zero_add]
  apply Finset.sum_eq_zero
  intro p _
  apply Finset.sum_eq_zero
  intro c hc
  have hne : ¬ j.val = tt.cTot0Idx + c := hcomp c (Finset.mem_range.mp hc)
  simp only [hne, if_false]

/-- An instance of C17: the fourth slot of the flash example with a spare
slot is 0 after `assignNaive`, whatever it held before. -/
theorem encoder_overwrite_witness :
    assignNaive Example.flashTagSpare (fun _ => 99) Example.twoPhase ⟨3, by decide⟩ = 0 :=
  (encoder_overwrite Example.flashTagSpare (fun _ => 99) (fun _ => 0) Example.twoPhase
    ⟨3, by decide⟩).2.1
    (by
      intro c hc
      have h2 : c < 2 := hc
      show 3 ≠ 0 + c
      omega)
    (by intro _; decide)

end FlashPrimaryVariables

/-! ## Theorems: PvsBoundaryRateVector -/

namespace PvsBoundaryRateVector

variable {α : Type} [LinearOrderedField α]

theorem addToEnthalpyRate_apply {n : Nat} (enableEnergy : Bool) (contiEnergyEqIdx : Nat)
    (rateVec : FieldVector α n) (rate : α) (j : Fin n) :
    EnergyModule.addToEnthalpyRate enableEnergy contiEnergyEqIdx rateVec rate j
      = rateVec j + (if enableEnergy = true ∧ j.val = contiEnergyEqIdx then rate else 0) := by
  unfold EnergyModule.addToEnthalpyRate
  by_cases hE : enableEnergy = true
  · rw [if_pos hE, FieldVector.addTo_apply]
    simp [hE]
  · simp [hE]

theorem meanMBoundary_eq_sum (tt : PvsTypeTag α) (fluidState : FluidState α) (phaseIdx : Nat) :
    meanMBoundary tt fluidState phaseIdx
      = Finset.sum (Finset.range tt.numComponents)
          (fun j => fluidState.moleFraction phaseIdx j * tt.fluidSystem.molarMass j) := by
  unfold meanMBoundary
  induction tt.numComponents with
  | zero => simp
  | succ m ih =>
    rw [List.range_succ, List.foldl_append, List.foldl_cons, List.foldl_nil, ih,
      Finset.sum_range_succ]

/-- One round of the loop over the phases adds, to every slot, the advective
flux of the component of that slot and, in the slot of the energy equation
when energy is enabled, the enthalpy rate of the phase. -/
theorem setFreeFlowPhase_apply (tt : PvsTypeTag α) (fluidState : FluidState α)
    (paramCache : tt.fluidSystem.ParameterCache) (extQuants : ExtensiveQuantities α)
    (insideIntQuants : IntensiveQuantities α) (self : FieldVector α tt.numEq) (phaseIdx : Nat)
    (j : Fin tt.numEq) :
    setFreeFlowPhase tt fluidState paramCache extQuants insideIntQuants self phaseIdx j
      = self j
        + (Finset.sum (Finset.range tt.numComponents) (fun c =>
              if j.val = tt.conti0EqIdx + c
              then extQuants.volumeFlux phaseIdx
                * upwindMolarity tt fluidState paramCache insideIntQuants phaseIdx c
              else 0)
          + (if tt.enableEnergy = true ∧ j.val = tt.contiEnergyEqIdx
              then upwindDensity tt fluidState paramCache insideIntQuants phaseIdx
                * extQuants.volumeFlux phaseIdx
                * upwindEnthalpy tt fluidState paramCache insideIntQuants phaseIdx
              else 0)) := by
  have hinner : ∀ v : FieldVector α tt.numEq,
      (List.range tt.numComponents).foldl
          (fun self compIdx =>
            self.addTo (tt.conti0EqIdx + compIdx)
              (extQuants.volumeFlux phaseIdx
                * upwindMolarity tt fluidState paramCache insideIntQuants phaseIdx compIdx))
          v j
        = v j + Finset.sum (Finset.range tt.numComponents) (fun c =>
              if j.val = tt.conti0EqIdx + c
              then extQuants.volumeFlux phaseIdx
                * upwindMolarity tt fluidState paramCache insideIntQuants phaseIdx c
              else 0) := by
    intro v
    rw [FieldVector.foldl_range_add _
      (fun c j => if j.val = tt.conti0EqIdx + c
        then extQuants.volumeFlux phaseIdx
          * upwindMolarity tt fluidState paramCache insideIntQuants phaseIdx c
        else 0)]
    intro v c j
    rw [FieldVector.addTo_apply]
  simp only [setFreeFlowPhase]
  by_cases hE : tt.enableEnergy = true
  · rw [if_pos hE, addToEnthalpyRate_apply, hinner, add_assoc]
  · rw [if_neg hE, hinner]
    simp [hE]

/-- The value of every slot after `setFreeFlow`. -/
theorem setFreeFlow_apply (tt : PvsTypeTag α) (self : FieldVector α tt.numEq)
    (context : tt.Context) (bfIdx timeIdx : Nat) (fluidState : FluidState α)
    (j : Fin tt.numEq) :
    setFreeFlow tt self context bfIdx timeIdx fluidState j
      = Finset.sum (Finset.range tt.numPhases) (fun p =>
          Finset.sum (Finset.range tt.numComponents) (fun c =>
              if j.val = tt.conti0EqIdx + c
              then (tt.updateBoundary context bfIdx timeIdx fluidState
                    (tt.fluidSystem.updateAll fluidState)).volumeFlux p
                * upwindMolarity tt fluidState (tt.fluidSystem.updateAll fluidState)
                    (tt.intensiveQuantities context bfIdx timeIdx) p c
              else 0)
          + (if tt.enableEnergy = true ∧ j.val = tt.contiEnergyEqIdx
              then upwindDensity tt fluidState (tt.fluidSystem.updateAll fluidState)
                    (tt.intensiveQuantities context bfIdx timeIdx) p
                * (tt.updateBoundary context bfIdx timeIdx fluidState
                    (tt.fluidSystem.updateAll fluidState)).volumeFlux p
                * upwindEnthalpy tt fluidState (tt.fluidSystem.updateAll fluidState)
                    (tt.intensiveQuantities context bfIdx timeIdx) p
              else 0))
        + (if tt.enableEnergy = true ∧ j.val = tt.contiEnergyEqIdx
            then EnergyModule.heatConductionRate tt.enableEnergy
              (tt.updateBoundary context bfIdx timeIdx fluidState
                (tt.fluidSystem.updateAll fluidState))
            else 0) := by
  simp only [setFreeFlow]
  rw [addToEnthalpyRate_apply,
    FieldVector.foldl_range_add _ _
      (setFreeFlowPhase_apply tt fluidState (tt.fluidSystem.updateAll fluidState)
        (tt.updateBoundary context bfIdx timeIdx fluidState
          (tt.fluidSystem.updateAll fluidState))
        (tt.intensiveQuantities context bfIdx timeIdx))]
  simp [FieldVector.assign]

/-- C8. Free-flow component flux formula: after `setFreeFlow` the slot
`conti0EqIdx + i` of every component `i` holds the sum over the phases of
`volumeFlux(phase) * upwindMolarity(phase, i)`, where for each phase on its own
the molarity is `moleFraction * density / meanMolarMass` of the boundary fluid
state if the boundary pressure of the phase is greater than the interior
pressure, and the molarity of the interior fluid state otherwise (also for
equal pressures). -/
theorem freeFlow_component_flux (tt : PvsTypeTag α) (self : FieldVector α tt.numEq)
    (context : tt.Context) (bfIdx timeIdx : Nat) (fluidState : FluidState α) (i : Nat)
    (hi : i < tt.numComponents) :
    (setFreeFlow tt self context bfIdx timeIdx fluidState).get (tt.conti0EqIdx + i)
      = Finset.sum (Finset.range tt.numPhases) (fun p =>
          (tt.updateBoundary context bfIdx timeIdx fluidState
              (tt.fluidSystem.updateAll fluidState)).volumeFlux p
            * (if fluidState.pressure p
                  > (tt.intensiveQuantities context bfIdx timeIdx).fluidState.pressure p
              then fluidState.moleFraction p i
                  * tt.fluidSystem.density fluidState (tt.fluidSystem.updateAll fluidState) p
                / Finset.sum (Finset.range tt.numComponents)
                    (fun j => fluidState.moleFraction p j * tt.fluidSystem.molarMass j)
              else (tt.intensiveQuantities context bfIdx timeIdx).fluidState.molarity p i)) := by
  have hlt : tt.conti0EqIdx + i < tt.numEq := by
    have := tt.componentSlots
    omega
  rw [FieldVector.get_of_lt _ _ hlt, setFreeFlow_apply]
  have hE : ¬ (tt.enableEnergy = true ∧ tt.conti0EqIdx + i = tt.contiEnergyEqIdx) := by
    rintro ⟨hE, hj⟩
    have := (tt.energySlot hE).2
    omega
  simp only [hE, if_false, add_zero]
  apply Finset.sum_congr rfl
  intro p _
  rw [FieldVector.sum_slot tt.conti0EqIdx tt.numComponents i hi
    (fun c => (tt.updateBoundary context bfIdx timeIdx fluidState
        (tt.fluidSystem.updateAll fluidState)).volumeFlux p
      * upwindMolarity tt fluidState (tt.fluidSystem.updateAll fluidState)
          (tt.intensiveQuantities context bfIdx timeIdx) p c)]
  unfold upwindMolarity upwindDensity
  rw [meanMBoundary_eq_sum]
  by_cases hp : fluidState.pressure p
      > (tt.intensiveQuantities context bfIdx timeIdx).fluidState.pressure p
  · simp only [hp, if_true]
  · simp only [hp, if_false]

/-- An instance of C8: in the PVS example phase 0 takes the boundary side
(molarity `3/10 * 1000 / (3/10 * 1 + 7/10 * 3) = 125`) and phase 1 the
interior side (molarity 10), so slot 0 holds `2 * 125 + (-3) * 10 = 220`. -/
theorem freeFlow_component_flux_witness :
    (setFreeFlow Example.pvsTag (fun _ => 99) () 0 0 Example.boundaryState).get (0 + 0)
      = 220 :=
  (freeFlow_component_flux Example.pvsTag (fun _ => 99) () 0 0 Example.boundaryState 0
      (by decide)).trans
    (by
      dsimp only [Example.pvsTag, Example.fluidSystem]
      norm_num [Finset.sum_range_succ, Example.boundaryState, Example.interiorState])

theorem clipInFlow_apply (tt : PvsTypeTag α) (self : FieldVector α tt.numEq)
    (j : Fin tt.numEq) : clipInFlow tt self j = min 0 (self j) := by
  unfold clipInFlow
  rw [FieldVector.foldl_range_map (fun x => min 0 x)]
  simp [j.isLt]

theorem clipOutFlow_apply (tt : PvsTypeTag α) (self : FieldVector α tt.numEq)
    (j : Fin tt.numEq) : clipOutFlow tt self j = max 0 (self j) := by
  unfold clipOutFlow
  rw [FieldVector.foldl_range_map (fun x => max 0 x)]
  simp [j.isLt]

/-- C9. `setInFlow` clips to inward-only flow: for every input and every
equation index, the slot after `setInFlow` is at most 0 and equals `min(0, v)`
for the value `v` which `setFreeFlow` produces for that slot on the same
input. -/
theorem inFlow_clipped (tt : PvsTypeTag α) (self : FieldVector α tt.numEq)
    (context : tt.Context) (bfIdx timeIdx : Nat) (fluidState : FluidState α)
    (eqIdx : Fin tt.numEq) :
    setInFlow tt self context bfIdx timeIdx fluidState eqIdx ≤ 0
      ∧ setInFlow tt self context bfIdx timeIdx fluidState eqIdx
        = min 0 (setFreeFlow tt self context bfIdx timeIdx fluidState eqIdx) := by
  unfold setInFlow
  rw [clipInFlow_apply]
  exact ⟨min_le_left _ _, rfl⟩

/-- C10. `setOutFlow` clips to outward-only flow: for every input and every
equation index, the slot after `setOutFlow` is at least 0 and equals
`max(0, v)` for the value `v` which `setFreeFlow` produces for that slot on
the same input. -/
theorem outFlow_clipped (tt : PvsTypeTag α) (self : FieldVector α tt.numEq)
    (context : tt.Context) (bfIdx timeIdx : Nat) (fluidState : FluidState α)
    (eqIdx : Fin tt.numEq) :
    0 ≤ setOutFlow tt self context bfIdx timeIdx fluidState eqIdx
      ∧ setOutFlow tt self context bfIdx timeIdx fluidState eqIdx
        = max 0 (setFreeFlow tt self context bfIdx timeIdx fluidState eqIdx) := by
  unfold setOutFlow
  rw [clipOutFlow_apply]
  exact ⟨le_max_left _ _, rfl⟩

/-- C11, as stated, fails: there is no scalar field, model and input for
which the slot-wise sum of the vectors of `setInFlow` and `setOutFlow`
differs from the vector of `setFreeFlow` on the same input. -/
theorem inFlow_add_outFlow_counterexample :
    ¬ ∃ (β : Type) (_ : LinearOrderedField β) (tt : PvsTypeTag β)
        (self : FieldVector β tt.numEq) (context : tt.Context) (bfIdx timeIdx : Nat)
        (fluidState : FluidState β),
        (fun j => setInFlow tt self context bfIdx timeIdx fluidState j
            + setOutFlow tt self context bfIdx timeIdx fluidState j)
          ≠ setFreeFlow tt self context bfIdx timeIdx fluidState := by
  rintro ⟨β, inst, tt, self, context, bfIdx, timeIdx, fluidState, hne⟩
  apply hne
  funext j
  unfold setInFlow setOutFlow
  rw [clipInFlow_apply, clipOutFlow_apply, min_add_max, zero_add]

/-- C11, amended. The sum of the inflow and outflow results always equals the
free-flow result: for every input and every slot, the slot of `setInFlow`
plus the slot of `setOutFlow` is the slot of `setFreeFlow` on the same input,
since `min(0, v) + max(0, v) = v`; each clipping discards the contributions
of one sign, and the other clipping keeps exactly those. -/
theorem inFlow_add_outFlow (tt : PvsTypeTag α) (self : FieldVector α tt.numEq)
    (context : tt.Context) (bfIdx timeIdx : Nat) (fluidState : FluidState α)
    (eqIdx : Fin tt.numEq) :
    setInFlow tt self context bfIdx timeIdx fluidState eqIdx
        + setOutFlow tt self context bfIdx timeIdx fluidState eqIdx
      = setFreeFlow tt self context bfIdx timeIdx fluidState eqIdx := by
  unfold setInFlow setOutFlow
  rw [clipInFlow_apply, clipOutFlow_apply, min_add_max, zero_add]

/-- C12. `setNoFlow` returns the zero vector unconditionally: for every prior
content of the rate vector, every slot is 0 after the call. -/
theorem noFlow_zero (tt : PvsTypeTag α) (self : FieldVector α tt.numEq)
    (eqIdx : Fin tt.numEq) :
    setNoFlow tt self eqIdx = 0 ∧ (setNoFlow tt self).get eqIdx.val = 0 := by
  refine ⟨rfl, ?_⟩
  rw [FieldVector.get_val]
  rfl

/-- C13. Energy slot with energy enabled: after `setFreeFlow` the slot of the
energy equation holds the sum over the phases of
`density(phase) * volumeFlux(phase) * specificEnthalpy(phase)`, with density
and enthalpy of a phase taken from the fluid system on the boundary fluid
state if the boundary pressure of the phase is greater than the interior
pressure and from the interior fluid state otherwise, plus the heat-conduction
rate of the energy module for the face, which is added once, outside of the
sum over the phases. -/
theorem freeFlow_energy_slot (tt : PvsTypeTag α) (self : FieldVector α tt.numEq)
    (context : tt.Context) (bfIdx timeIdx : Nat) (fluidState : FluidState α)
    (hE : tt.enableEnergy = true) :
    (setFreeFlow tt self context bfIdx timeIdx fluidState).get tt.contiEnergyEqIdx
      = Finset.sum (Finset.range tt.numPhases) (fun p =>
          (if fluidState.pressure p
                > (tt.intensiveQuantities context bfIdx timeIdx).fluidState.pressure p
            then tt.fluidSystem.density fluidState (tt.fluidSystem.updateAll fluidState) p
            else (tt.intensiveQuantities context bfIdx timeIdx).fluidState.density p)
          * (tt.updateBoundary context bfIdx timeIdx fluidState
              (tt.fluidSystem.updateAll fluidState)).volumeFlux p
          * (if fluidState.pressure p
                > (tt.intensiveQuantities context bfIdx timeIdx).fluidState.pressure p
            then tt.fluidSystem.enthalpy fluidState (tt.fluidSystem.updateAll fluidState) p
            else (tt.intensiveQuantities context bfIdx timeIdx).fluidState.enthalpy p))
        + EnergyModule.heatConductionRate tt.enableEnergy
            (tt.updateBoundary context bfIdx timeIdx fluidState
              (tt.fluidSystem.updateAll fluidState)) := by
  have hlt : tt.contiEnergyEqIdx < tt.numEq := (tt.energySlot hE).1
  rw [FieldVector.get_of_lt _ _ hlt, setFreeFlow_apply]
  have hcond : tt.enableEnergy = true ∧ tt.contiEnergyEqIdx = tt.contiEnergyEqIdx :=
    ⟨hE, rfl⟩
  simp only [hcond, if_true]
  congr 1
  apply Finset.sum_congr rfl
  intro p _
  have hzero : Finset.sum (Finset.range tt.numComponents) (fun c =>
      if tt.contiEnergyEqIdx = tt.conti0EqIdx + c
      then (tt.updateBoundary context bfIdx timeIdx fluidState
            (tt.fluidSystem.updateAll fluidState)).volumeFlux p
        * upwindMolarity tt fluidState (tt.fluidSystem.updateAll fluidState)
            (tt.intensiveQuantities context bfIdx timeIdx) p c
      else 0) = 0 := by
    apply Finset.sum_eq_zero
    intro c hc
    have hc2 : c < tt.numComponents := Finset.mem_range.mp hc
    have hne : ¬ tt.contiEnergyEqIdx = tt.conti0EqIdx + c := by
      have := (tt.energySlot hE).2
      omega
    simp only [hne, if_false]
  simp only [and_self, if_true] at hzero ⊢
  rw [hzero, zero_add]
  rfl

/-- An instance of C13: in the PVS example the energy slot holds
`1000 * 2 * 6 + 800 * (-3) * 4 + 7 = 2407`. -/
theorem freeFlow_energy_slot_witness :
    (setFreeFlow Example.pvsTag (fun _ => 99) () 0 0 Example.boundaryState).get 2 = 2407 :=
  (freeFlow_energy_slot Example.pvsTag (fun _ => 99) () 0 0 Example.boundaryState rfl).trans
    (by
      dsimp only [Example.pvsTag, Example.fluidSystem, EnergyModule.heatConductionRate]
      norm_num [Finset.sum_range_succ, Example.boundaryState, Example.interiorState])

/-- C14, as stated, fails when the vector has a slot at the index of the energy
equation: with energy disabled and the prior content 99 in every slot, that
slot holds 0 after `setFreeFlow`, not the value it held before. -/
theorem freeFlow_energy_disabled_counterexample :
    Example.isothermalTag.enableEnergy = false
      ∧ Example.isothermalTag.contiEnergyEqIdx < Example.isothermalTag.numEq
      ∧ FieldVector.get (fun _ => 99 : FieldVector ℚ Example.isothermalTag.numEq)
          Example.isothermalTag.contiEnergyEqIdx = 99
      ∧ (setFreeFlow Example.isothermalTag (fun _ => 99) () 0 0 Example.boundaryState).get
          Example.isothermalTag.contiEnergyEqIdx = 0 := by
  refine ⟨rfl, by decide, rfl, ?_⟩
  have h2 : Example.isothermalTag.contiEnergyEqIdx < Example.isothermalTag.numEq := by decide
  rw [FieldVector.get_of_lt _ _ h2, setFreeFlow_apply]
  dsimp only [Example.isothermalTag]
  norm_num [Finset.sum_range_succ]

/-- C14, amended. Energy disabled: for every input and every prior content of
the rate vector, `setFreeFlow` with energy disabled puts no enthalpy and no
heat-conduction contribution into any slot: the result does not depend on the
prior content, every slot holds exactly the advective fluxes accumulated for
the component of that slot, and every slot which is not a component slot (a
slot at the index of the energy equation included, if the vector has one) is
0 after the call, because the vector is reset first. -/
theorem freeFlow_energy_disabled (tt : PvsTypeTag α) (self self0 : FieldVector α tt.numEq)
    (context : tt.Context) (bfIdx timeIdx : Nat) (fluidState : FluidState α)
    (hE : tt.enableEnergy = false) (j : Fin tt.numEq) :
    setFreeFlow tt self context bfIdx timeIdx fluidState
        = setFreeFlow tt self0 context bfIdx timeIdx fluidState
      ∧ setFreeFlow tt self context bfIdx timeIdx fluidState j
        = Finset.sum (Finset.range tt.numPhases) (fun p =>
            Finset.sum (Finset.range tt.numComponents) (fun c =>
              if j.val = tt.conti0EqIdx + c
              then (tt.updateBoundary context bfIdx timeIdx fluidState
                    (tt.fluidSystem.updateAll fluidState)).volumeFlux p
                * upwindMolarity tt fluidState (tt.fluidSystem.updateAll fluidState)
                    (tt.intensiveQuantities context bfIdx timeIdx) p c
              else 0))
      ∧ ((∀ c, c < tt.numComponents → j.val ≠ tt.conti0EqIdx + c) →
          setFreeFlow tt self context bfIdx timeIdx fluidState j = 0) := by
  have hform : setFreeFlow tt self context bfIdx timeIdx fluidState j
      = Finset.sum (Finset.range tt.numPhases) (fun p =>
          Finset.sum (Finset.range tt.numComponents) (fun c =>
            if j.val = tt.conti0EqIdx + c
            then (tt.updateBoundary context bfIdx timeIdx fluidState
                  (tt.fluidSystem.updateAll fluidState)).volumeFlux p
              * upwindMolarity tt fluidState (tt.fluidSystem.updateAll fluidState)
                  (tt.intensiveQuantities context bfIdx timeIdx) p c
            else 0)) := by
    rw [setFreeFlow_apply]
    simp [hE]
  refine ⟨rfl, hform, ?_⟩
  intro hj
  rw [hform]
  apply Finset.sum_eq_zero
  intro p _
  apply Finset.sum_eq_zero
  intro c hc
  have hne : ¬ j.val = tt.conti0EqIdx + c := hj c (Finset.mem_range.mp hc)
  simp only [hne, if_false]

/-- An instance of C14, amended: with energy disabled the third slot of the
PVS example is 0 after `setFreeFlow`. -/
theorem freeFlow_energy_disabled_witness :
    setFreeFlow Example.isothermalTag (fun _ => 99) () 0 0 Example.boundaryState
        ⟨2, by decide⟩ = 0 :=
  (freeFlow_energy_disabled Example.isothermalTag (fun _ => 99) (fun _ => 0) () 0 0
    Example.boundaryState rfl ⟨2, by decide⟩).2.2
    (by
      intro c hc
      have h2 : c < 2 := hc
      show 2 ≠ 0 + c
      omega)

/-- The slot of a component after `setFreeFlow` is the sum over the phases of
the terms added by the component loop. -/
theorem setFreeFlow_get_component (tt : PvsTypeTag α) (self : FieldVector α tt.numEq)
    (context : tt.Context) (bfIdx timeIdx : Nat) (fluidState : FluidState α) (i : Nat)
    (hi : i < tt.numComponents) :
    (setFreeFlow tt self context bfIdx timeIdx fluidState).get (tt.conti0EqIdx + i)
      = Finset.sum (Finset.range tt.numPhases) (fun p =>
          advectiveFlux tt fluidState (tt.fluidSystem.updateAll fluidState)
            (tt.updateBoundary context bfIdx timeIdx fluidState
              (tt.fluidSystem.updateAll fluidState))
            (tt.intensiveQuantities context bfIdx timeIdx) p i) := by
  have hlt : tt.conti0EqIdx + i < tt.numEq := by
    have := tt.componentSlots
    omega
  rw [FieldVector.get_of_lt _ _ hlt, setFreeFlow_apply]
  have hE : ¬ (tt.enableEnergy = true ∧ tt.conti0EqIdx + i = tt.contiEnergyEqIdx) := by
    rintro ⟨hE, hj⟩
    have := (tt.energySlot hE).2
    omega
  simp only [hE, if_false, add_zero]
  apply Finset.sum_congr rfl
  intro p _
  rw [FieldVector.sum_slot tt.conti0EqIdx tt.numComponents i hi
    (fun c => (tt.updateBoundary context bfIdx timeIdx fluidState
        (tt.fluidSystem.updateAll fluidState)).volumeFlux p
      * upwindMolarity tt fluidState (tt.fluidSystem.updateAll fluidState)
          (tt.intensiveQuantities context bfIdx timeIdx) p c)]
  rfl

/-- The term of a phase which takes the boundary side. -/
theorem advectiveFlux_boundary (tt : PvsTypeTag α) (fluidState : FluidState α)
    (paramCache : tt.fluidSystem.ParameterCache) (extQuants : ExtensiveQuantities α)
    (insideIntQuants : IntensiveQuantities α) (phaseIdx compIdx : Nat)
    (hp : fluidState.pressure phaseIdx > insideIntQuants.fluidState.pressure phaseIdx) :
    advectiveFlux tt fluidState paramCache extQuants insideIntQuants phaseIdx compIdx
      = extQuants.volumeFlux phaseIdx
        * (fluidState.moleFraction phaseIdx compIdx
            * tt.fluidSystem.density fluidState paramCache phaseIdx
          / Finset.sum (Finset.range tt.numComponents)
              (fun j => fluidState.moleFraction phaseIdx j * tt.fluidSystem.molarMass j)) := by
  unfold advectiveFlux upwindMolarity upwindDensity
  rw [if_pos hp, if_pos hp, meanMBoundary_eq_sum]

/-- The term of a phase which takes the interior side. -/
theorem advectiveFlux_interior (tt : PvsTypeTag α) (fluidState : FluidState α)
    (paramCache : tt.fluidSystem.ParameterCache) (extQuants : ExtensiveQuantities α)
    (insideIntQuants : IntensiveQuantities α) (phaseIdx compIdx : Nat)
    (hp : ¬ fluidState.pressure phaseIdx > insideIntQuants.fluidState.pressure phaseIdx) :
    advectiveFlux tt fluidState paramCache extQuants insideIntQuants phaseIdx compIdx
      = extQuants.volumeFlux phaseIdx * insideIntQuants.fluidState.molarity phaseIdx compIdx := by
  unfold advectiveFlux upwindMolarity
  rw [if_neg hp]

/-- C15. The concrete free-flow example: with a single phase, two components,
boundary mole fractions 0.3 and 0.7, molar masses `M1` and `M2` with
`0.3 * M1 + 0.7 * M2` nonzero, volumetric flux 2, boundary density 1000 and
the boundary pressure greater than the interior pressure, `setFreeFlow` puts
`2 * (0.3 * 1000 / (0.3 * M1 + 0.7 * M2))` into the slot of component 0,
whatever the interior fluid state holds besides its pressure. -/
theorem freeFlow_concrete_example (tt : PvsTypeTag α) (self : FieldVector α tt.numEq)
    (context : tt.Context) (bfIdx timeIdx : Nat) (fluidState : FluidState α) (M1 M2 : α)
    (hP : tt.numPhases = 1) (hC : tt.numComponents = 2)
    (hx0 : fluidState.moleFraction 0 0 = 3 / 10) (hx1 : fluidState.moleFraction 0 1 = 7 / 10)
    (hM1 : tt.fluidSystem.molarMass 0 = M1) (hM2 : tt.fluidSystem.molarMass 1 = M2)
    (_hM : 3 / 10 * M1 + 7 / 10 * M2 ≠ 0)
    (hflux : (tt.updateBoundary context bfIdx timeIdx fluidState
      (tt.fluidSystem.updateAll fluidState)).volumeFlux 0 = 2)
    (hrho : tt.fluidSystem.density fluidState (tt.fluidSystem.updateAll fluidState) 0 = 1000)
    (hp : fluidState.pressure 0
      > (tt.intensiveQuantities context bfIdx timeIdx).fluidState.pressure 0) :
    (setFreeFlow tt self context bfIdx timeIdx fluidState).get (tt.conti0EqIdx + 0)
      = 2 * (3 / 10 * 1000 / (3 / 10 * M1 + 7 / 10 * M2)) := by
  rw [setFreeFlow_get_component tt self context bfIdx timeIdx fluidState 0 (by omega), hP,
    Finset.sum_range_one, advectiveFlux_boundary _ _ _ _ _ _ _ hp, hC]
  simp only [Finset.sum_range_succ, Finset.sum_range_zero, zero_add]
  rw [hx0, hx1, hM1, hM2, hflux, hrho]

/-- An instance of C15: molar masses 1 and 3 give
`2 * (0.3 * 1000 / 2.4) = 250` in the slot of component 0. -/
theorem freeFlow_concrete_example_witness :
    (setFreeFlow Example.singlePhaseTag (fun _ => 99) () 0 0 Example.boundaryState).get (0 + 0)
      = 250 :=
  (freeFlow_concrete_example Example.singlePhaseTag (fun _ => 99) () 0 0 Example.boundaryState
      1 3 rfl rfl rfl rfl rfl rfl (by norm_num) rfl rfl
      (by show ((1 : ℚ) < 2); norm_num)).trans
    (by norm_num)

/-- C16. Mixed-side upwinding at one face: with two phases `A` and `B` and a
single component, the boundary pressure of `A` greater than its interior
pressure and the boundary pressure of `B` less than its interior pressure,
the component slot after `setFreeFlow` is
`volumeFlux(A) * (moleFraction(A) * density(A) / (moleFraction(A) * molarMass))`
of the boundary side plus `volumeFlux(B)` times the interior molarity of `B`:
the term of `A` contains no interior density or molarity, the term of `B` no
boundary density, mole fraction or molar mass. -/
theorem freeFlow_mixed_upwinding (tt : PvsTypeTag α) (self : FieldVector α tt.numEq)
    (context : tt.Context) (bfIdx timeIdx : Nat) (fluidState : FluidState α) (A B : Nat)
    (hP : tt.numPhases = 2) (hC : tt.numComponents = 1)
    (hA : A < 2) (hB : B < 2) (hAB : A ≠ B)
    (hpA : fluidState.pressure A
      > (tt.intensiveQuantities context bfIdx timeIdx).fluidState.pressure A)
    (hpB : fluidState.pressure B
      < (tt.intensiveQuantities context bfIdx timeIdx).fluidState.pressure B) :
    (setFreeFlow tt self context bfIdx timeIdx fluidState).get (tt.conti0EqIdx + 0)
        = (tt.updateBoundary context bfIdx timeIdx fluidState
              (tt.fluidSystem.updateAll fluidState)).volumeFlux A
            * (fluidState.moleFraction A 0
                * tt.fluidSystem.density fluidState (tt.fluidSystem.updateAll fluidState) A
              / (fluidState.moleFraction A 0 * tt.fluidSystem.molarMass 0))
          + (tt.updateBoundary context bfIdx timeIdx fluidState
              (tt.fluidSystem.updateAll fluidState)).volumeFlux B
            * (tt.intensiveQuantities context bfIdx timeIdx).fluidState.molarity B 0
      ∧ advectiveFlux tt fluidState (tt.fluidSystem.updateAll fluidState)
          (tt.updateBoundary context bfIdx timeIdx fluidState
            (tt.fluidSystem.updateAll fluidState))
          (tt.intensiveQuantities context bfIdx timeIdx) A 0
        = (tt.updateBoundary context bfIdx timeIdx fluidState
              (tt.fluidSystem.updateAll fluidState)).volumeFlux A
            * (fluidState.moleFraction A 0
                * tt.fluidSystem.density fluidState (tt.fluidSystem.updateAll fluidState) A
              / (fluidState.moleFraction A 0 * tt.fluidSystem.molarMass 0))
      ∧ advectiveFlux tt fluidState (tt.fluidSystem.updateAll fluidState)
          (tt.updateBoundary context bfIdx timeIdx fluidState
            (tt.fluidSystem.updateAll fluidState))
          (tt.intensiveQuantities context bfIdx timeIdx) B 0
        = (tt.updateBoundary context bfIdx timeIdx fluidState
              (tt.fluidSystem.updateAll fluidState)).volumeFlux B
            * (tt.intensiveQuantities context bfIdx timeIdx).fluidState.molarity B 0 := by
  have hnB : ¬ fluidState.pressure B
      > (tt.intensiveQuantities context bfIdx timeIdx).fluidState.pressure B :=
    not_lt.mpr (le_of_lt hpB)
  have hfA := advectiveFlux_boundary tt fluidState (tt.fluidSystem.updateAll fluidState)
    (tt.updateBoundary context bfIdx timeIdx fluidState (tt.fluidSystem.updateAll fluidState))
    (tt.intensiveQuantities context bfIdx timeIdx) A 0 hpA
  have hfB := advectiveFlux_interior tt fluidState (tt.fluidSystem.updateAll fluidState)
    (tt.updateBoundary context bfIdx timeIdx fluidState (tt.fluidSystem.updateAll fluidState))
    (tt.intensiveQuantities context bfIdx timeIdx) B 0 hnB
  rw [hC] at hfA
  simp only [Finset.sum_range_succ, Finset.sum_range_zero, zero_add] at hfA
  refine ⟨?_, hfA, hfB⟩
  rw [setFreeFlow_get_component tt self context bfIdx timeIdx fluidState 0 (by omega), hP,
    ← hfA, ← hfB]
  simp only [Finset.sum_range_succ, Finset.sum_range_zero, zero_add]
  have hcases : (A = 0 ∧ B = 1) ∨ (A = 1 ∧ B = 0) := by omega
  rcases hcases with ⟨rfl, rfl⟩ | ⟨rfl, rfl⟩
  · rfl
  · exact add_comm _ _

/-- An instance of C16: in the two-phase single-component example phase 0
takes the boundary side (molarity `0.3 * 1000 / (0.3 * 1) = 1000`) and phase 1
the interior side (molarity 10): the slot holds `2 * 1000 + (-3) * 10 = 1970`. -/
theorem freeFlow_mixed_upwinding_witness :
    (setFreeFlow Example.singleComponentTag (fun _ => 99) () 0 0
        Example.boundaryState).get (0 + 0) = 1970 :=
  (freeFlow_mixed_upwinding Example.singleComponentTag (fun _ => 99) () 0 0
      Example.boundaryState 0 1 rfl rfl (by decide) (by decide) (by decide)
      (by show ((1 : ℚ) < 2); norm_num) (by show ((1 : ℚ) < 2); norm_num)).1.trans
    (by
      dsimp only [Example.singleComponentTag, Example.fluidSystem]
      norm_num [Example.boundaryState, Example.interiorState])

/-- C18. Mass consistency of boundary-side upwinding: every component slot after
`setFreeFlow` is the sum over the phases of the terms added for them, and for
every phase whose boundary pressure is greater than its interior pressure
and whose boundary mean molar mass is nonzero, the sum over the components
of `molarMass(i)` times the term of that phase for component `i` equals
`volumeFlux(phase) * density(phase)` of the boundary side. -/
theorem freeFlow_mass_consistency (tt : PvsTypeTag α) (self : FieldVector α tt.numEq)
    (context : tt.Context) (bfIdx timeIdx : Nat) (fluidState : FluidState α) (p : Nat)
    (hp : fluidState.pressure p
      > (tt.intensiveQuantities context bfIdx timeIdx).fluidState.pressure p)
    (hM : Finset.sum (Finset.range tt.numComponents)
      (fun j => fluidState.moleFraction p j * tt.fluidSystem.molarMass j) ≠ 0) :
    (∀ i, i < tt.numComponents →
        (setFreeFlow tt self context bfIdx timeIdx fluidState).get (tt.conti0EqIdx + i)
          = Finset.sum (Finset.range tt.numPhases) (fun q =>
              advectiveFlux tt fluidState (tt.fluidSystem.updateAll fluidState)
                (tt.updateBoundary context bfIdx timeIdx fluidState
                  (tt.fluidSystem.updateAll fluidState))
                (tt.intensiveQuantities context bfIdx timeIdx) q i))
      ∧ Finset.sum (Finset.range tt.numComponents) (fun i =>
          tt.fluidSystem.molarMass i
            * advectiveFlux tt fluidState (tt.fluidSystem.updateAll fluidState)
                (tt.updateBoundary context bfIdx timeIdx fluidState
                  (tt.fluidSystem.updateAll fluidState))
                (tt.intensiveQuantities context bfIdx timeIdx) p i)
        = (tt.updateBoundary context bfIdx timeIdx fluidState
              (tt.fluidSystem.updateAll fluidState)).volumeFlux p
            * tt.fluidSystem.density fluidState (tt.fluidSystem.updateAll fluidState) p := by
  refine ⟨fun i hi => setFreeFlow_get_component tt self context bfIdx timeIdx fluidState i hi,
    ?_⟩
  have hterm : ∀ i, tt.fluidSystem.molarMass i
      * advectiveFlux tt fluidState (tt.fluidSystem.updateAll fluidState)
          (tt.updateBoundary context bfIdx timeIdx fluidState
            (tt.fluidSystem.updateAll fluidState))
          (tt.intensiveQuantities context bfIdx timeIdx) p i
      = ((tt.updateBoundary context bfIdx timeIdx fluidState
              (tt.fluidSystem.updateAll fluidState)).volumeFlux p
            * tt.fluidSystem.density fluidState (tt.fluidSystem.updateAll fluidState) p
          / Finset.sum (Finset.range tt.numComponents)
              (fun j => fluidState.moleFraction p j * tt.fluidSystem.molarMass j))
        * (fluidState.moleFraction p i * tt.fluidSystem.molarMass i) := by
    intro i
    rw [advectiveFlux_boundary _ _ _ _ _ _ _ hp]
    ring
  simp only [hterm]
  rw [← Finset.mul_sum]
  field_simp

/-- An instance of C18: in the PVS example phase 0 takes the boundary side,
and `1 * (2 * 125) + 3 * (2 * 875 / 3) = 2 * 1000`. -/
theorem freeFlow_mass_consistency_witness :
    Finset.sum (Finset.range 2) (fun i =>
        Example.fluidSystem.molarMass i
          * advectiveFlux Example.pvsTag Example.boundaryState ()
              ⟨fun p => if p = 0 then 2 else -3, 7⟩ ⟨Example.interiorState⟩ 0 i)
      = 2 * 1000 :=
  (freeFlow_mass_consistency Example.pvsTag (fun _ => 99) () 0 0 Example.boundaryState 0
    (by show ((1 : ℚ) < 2); norm_num)
    (by
      dsimp only [Example.pvsTag, Example.fluidSystem]
      norm_num [Finset.sum_range_succ, Example.boundaryState])).2

theorem upwindMolarityTraced_fst (tt : PvsTypeTag α) (fluidState : FluidState α)
    (paramCache : tt.fluidSystem.ParameterCache) (insideIntQuants : IntensiveQuantities α)
    (phaseIdx compIdx : Nat) :
    (upwindMolarityTraced tt fluidState paramCache insideIntQuants phaseIdx compIdx).1
      = upwindMolarity tt fluidState paramCache insideIntQuants phaseIdx compIdx := by
  unfold upwindMolarityTraced upwindMolarity
  by_cases hp : fluidState.pressure phaseIdx > insideIntQuants.fluidState.pressure phaseIdx
  · rw [if_pos hp, if_pos hp]
  · rw [if_neg hp, if_neg hp]

theorem upwindMolarityTraced_snd (tt : PvsTypeTag α) (fluidState : FluidState α)
    (paramCache : tt.fluidSystem.ParameterCache) (insideIntQuants : IntensiveQuantities α)
    (phaseIdx compIdx : Nat) :
    (upwindMolarityTraced tt fluidState paramCache insideIntQuants phaseIdx compIdx).2
      = if fluidState.pressure phaseIdx > insideIntQuants.fluidState.pressure phaseIdx
        then [meanMBoundary tt fluidState phaseIdx] else [] := by
  unfold upwindMolarityTraced
  by_cases hp : fluidState.pressure phaseIdx > insideIntQuants.fluidState.pressure phaseIdx
  · rw [if_pos hp, if_pos hp]
  · rw [if_neg hp, if_neg hp]

/-- A loop on a value paired with a trace, whose body appends `g k` to the
trace in round `k`, computes the value of the loop without the trace and
collects the traces of all rounds. -/
theorem foldl_range_traced {V β : Type} (f : V → Nat → V) (g : Nat → List β) (m : Nat)
    (v : V) (l : List β) :
    (List.range m).foldl (fun s k => (f s.1 k, s.2 ++ g k)) (v, l)
      = ((List.range m).foldl f v, l ++ (List.range m).flatMap g) := by
  induction m with
  | zero => simp
  | succ m ih =>
    rw [List.range_succ, List.foldl_append, List.foldl_append, List.flatMap_append, ih]
    simp [List.append_assoc]

theorem setFreeFlowPhaseTraced_eq (tt : PvsTypeTag α) (fluidState : FluidState α)
    (paramCache : tt.fluidSystem.ParameterCache) (extQuants : ExtensiveQuantities α)
    (insideIntQuants : IntensiveQuantities α) (s : FieldVector α tt.numEq × List α)
    (phaseIdx : Nat) :
    setFreeFlowPhaseTraced tt fluidState paramCache extQuants insideIntQuants s phaseIdx
      = (setFreeFlowPhase tt fluidState paramCache extQuants insideIntQuants s.1 phaseIdx,
          s.2 ++ (List.range tt.numComponents).flatMap (fun c =>
            (upwindMolarityTraced tt fluidState paramCache insideIntQuants phaseIdx c).2)) := by
  obtain ⟨v, l⟩ := s
  simp only [setFreeFlowPhaseTraced, setFreeFlowPhase]
  rw [foldl_range_traced
    (fun (w : FieldVector α tt.numEq) c => w.addTo (tt.conti0EqIdx + c)
      (extQuants.volumeFlux phaseIdx
        * (upwindMolarityTraced tt fluidState paramCache insideIntQuants phaseIdx c).1))
    (fun c => (upwindMolarityTraced tt fluidState paramCache insideIntQuants phaseIdx c).2)]
  simp only [upwindMolarityTraced_fst]
  by_cases hE : tt.enableEnergy = true
  · simp only [hE, if_true]
  · simp only [hE]
    rfl

/-- The traced `setFreeFlow` computes the rate vector of `setFreeFlow`, and its
trace holds one divisor for every phase and component of the loops for which
the molarity is computed on the boundary side. -/
theorem setFreeFlowTraced_eq (tt : PvsTypeTag α) (self : FieldVector α tt.numEq)
    (context : tt.Context) (bfIdx timeIdx : Nat) (fluidState : FluidState α) :
    setFreeFlowTraced tt self context bfIdx timeIdx fluidState
      = (setFreeFlow tt self context bfIdx timeIdx fluidState,
          (List.range tt.numPhases).flatMap (fun p =>
            (List.range tt.numComponents).flatMap (fun c =>
              (upwindMolarityTraced tt fluidState (tt.fluidSystem.updateAll fluidState)
                (tt.intensiveQuantities context bfIdx timeIdx) p c).2))) := by
  simp only [setFreeFlowTraced, setFreeFlow]
  have hstep : setFreeFlowPhaseTraced tt fluidState (tt.fluidSystem.updateAll fluidState)
        (tt.updateBoundary context bfIdx timeIdx fluidState
          (tt.fluidSystem.updateAll fluidState))
        (tt.intensiveQuantities context bfIdx timeIdx)
      = fun s k =>
        (setFreeFlowPhase tt fluidState (tt.fluidSystem.updateAll fluidState)
            (tt.updateBoundary context bfIdx timeIdx fluidState
              (tt.fluidSystem.updateAll fluidState))
            (tt.intensiveQuantities context bfIdx timeIdx) s.1 k,
          s.2 ++ (List.range tt.numComponents).flatMap (fun c =>
            (upwindMolarityTraced tt fluidState (tt.fluidSystem.updateAll fluidState)
              (tt.intensiveQuantities context bfIdx timeIdx) k c).2)) := by
    funext s k
    exact setFreeFlowPhaseTraced_eq _ _ _ _ _ s k
  rw [hstep, foldl_range_traced]
  simp

/-- C19. Division safety in `setFreeFlow`: the traced evaluation computes the
same rate vector; every divisor of a division evaluated by `setFreeFlow` is
the boundary mean molar mass of a phase whose boundary pressure is greater
than its interior pressure; hence if every such phase has a nonzero
mole-fraction-weighted boundary molar mass, no divisor is zero; and if no
phase has a boundary pressure greater than its interior pressure, no division
is evaluated at all and every component slot is the sum over the phases of
`volumeFlux(phase)` times the interior molarity, in which no boundary mole
fraction, molar mass or density occurs. -/
theorem freeFlow_division_safety (tt : PvsTypeTag α) (self : FieldVector α tt.numEq)
    (context : tt.Context) (bfIdx timeIdx : Nat) (fluidState : FluidState α) :
    (setFreeFlowTraced tt self context bfIdx timeIdx fluidState).1
        = setFreeFlow tt self context bfIdx timeIdx fluidState
      ∧ (∀ d, d ∈ (setFreeFlowTraced tt self context bfIdx timeIdx fluidState).2 →
          ∃ p, p < tt.numPhases
            ∧ fluidState.pressure p
              > (tt.intensiveQuantities context bfIdx timeIdx).fluidState.pressure p
            ∧ d = Finset.sum (Finset.range tt.numComponents)
                (fun j => fluidState.moleFraction p j * tt.fluidSystem.molarMass j))
      ∧ ((∀ p, p < tt.numPhases →
            fluidState.pressure p
              > (tt.intensiveQuantities context bfIdx timeIdx).fluidState.pressure p →
            Finset.sum (Finset.range tt.numComponents)
                (fun j => fluidState.moleFraction p j * tt.fluidSystem.molarMass j) ≠ 0) →
          (0 : α) ∉ (setFreeFlowTraced tt self context bfIdx timeIdx fluidState).2)
      ∧ ((∀ p, p < tt.numPhases →
            ¬ fluidState.pressure p
              > (tt.intensiveQuantities context bfIdx timeIdx).fluidState.pressure p) →
          (setFreeFlowTraced tt self context bfIdx timeIdx fluidState).2 = []
            ∧ ∀ i, i < tt.numComponents →
              (setFreeFlow tt self context bfIdx timeIdx fluidState).get (tt.conti0EqIdx + i)
                = Finset.sum (Finset.range tt.numPhases) (fun p =>
                    (tt.updateBoundary context bfIdx timeIdx fluidState
                        (tt.fluidSystem.updateAll fluidState)).volumeFlux p
                      * (tt.intensiveQuantities context bfIdx timeIdx).fluidState.molarity
                          p i)) := by
  have hdiv : ∀ d, d ∈ (setFreeFlowTraced tt self context bfIdx timeIdx fluidState).2 →
      ∃ p, p < tt.numPhases
        ∧ fluidState.pressure p
          > (tt.intensiveQuantities context bfIdx timeIdx).fluidState.pressure p
        ∧ d = Finset.sum (Finset.range tt.numComponents)
            (fun j => fluidState.moleFraction p j * tt.fluidSystem.molarMass j) := by
    intro d hd
    rw [setFreeFlowTraced_eq] at hd
    obtain ⟨p, hp, hd⟩ := List.mem_flatMap.mp hd
    obtain ⟨c, _, hd⟩ := List.mem_flatMap.mp hd
    rw [upwindMolarityTraced_snd] at hd
    by_cases hpr : fluidState.pressure p
        > (tt.intensiveQuantities context bfIdx timeIdx).fluidState.pressure p
    · rw [if_pos hpr, List.mem_singleton, meanMBoundary_eq_sum] at hd
      exact ⟨p, List.mem_range.mp hp, hpr, hd⟩
    · rw [if_neg hpr] at hd
      exact absurd hd (List.not_mem_nil d)
  refine ⟨by rw [setFreeFlowTraced_eq], hdiv, ?_, ?_⟩
  · intro hpre h0
    obtain ⟨p, hp, hpr, h0⟩ := hdiv 0 h0
    exact hpre p hp hpr h0.symm
  · intro hint
    constructor
    · apply List.eq_nil_iff_forall_not_mem.mpr
      intro d hd
      obtain ⟨p, hp, hpr, _⟩ := hdiv d hd
      exact hint p hp hpr
    · intro i hi
      rw [setFreeFlow_get_component tt self context bfIdx timeIdx fluidState i hi]
      apply Finset.sum_congr rfl
      intro p hp
      exact advectiveFlux_interior _ _ _ _ _ p i (hint p (Finset.mem_range.mp hp))

/-- An instance of C19: in the PVS example the boundary mean molar mass is
12/5 for both phases, so no divisor is zero; and with the interior fluid
state given as the boundary fluid state no phase takes the boundary side and
no division is evaluated. -/
theorem freeFlow_division_safety_witness :
    (0 : ℚ) ∉ (setFreeFlowTraced Example.pvsTag (fun _ => 99) () 0 0
        Example.boundaryState).2
      ∧ (setFreeFlowTraced Example.pvsTag (fun _ => 99) () 0 0 Example.interiorState).2
        = [] :=
  ⟨(freeFlow_division_safety Example.pvsTag (fun _ => 99) () 0 0
      Example.boundaryState).2.2.1
      (by
        intro p _ _
        dsimp only [Example.pvsTag, Example.fluidSystem]
        norm_num [Finset.sum_range_succ, Example.boundaryState]),
    ((freeFlow_division_safety Example.pvsTag (fun _ => 99) () 0 0
      Example.interiorState).2.2.2
      (by
        intro p _
        exact lt_irrefl _)).1⟩

end PvsBoundaryRateVector

end Ewoms
